import Mathlib

/-!
Verification of the deployment engine of this repository.

Shallow embedding of the transport primitives of `lib/remote.py`, of the
traefik deployer `traefik/deploy.py` (instance resolution, render context,
`cmd_diff`, `cmd_deploy` and the per-instance loop of `main`), of the synapse
deployer `synapse/deploy.py` (`cmd_deploy`), and of the certificate lifecycle
script `certs/deploy.py` (the renewal decision of `issue` and the target
filter of `distribute`).

Modelling conventions:
* A subprocess invocation is its observable result `ProcResult`
  (exit code, captured stdout, captured stderr).
* The fleet of remote hosts is a `World`: for each ssh target string a
  `Host` holding its reachability, a per-path rsync failure mode, and the
  remote filesystem as a partial map from path to file content.  An
  unreachable host fails every ssh/rsync operation; `rsyncFail` models an
  rsync transfer that exits non-zero with empty stdout for one path.
  When a host is reachable, `rsync --checksum` updates the remote file and
  reports "changed" exactly when the previous content differed (content
  comparison, the behaviour stipulated by the transport contract).
* Side effects and printed status lines are recorded in order as `Event`s;
  the ANSI colour prefixes of the Python `print` calls are dropped, the
  message text is kept verbatim.
* `sys.exit(1)` and an uncaught `subprocess.CalledProcessError` both abort
  the process: a run result `RunOut` carries `err = some message` in that
  case, together with the events that happened before the abort.
-/

namespace Infra

/-- Observable outcome of one subprocess invocation. -/
structure ProcResult where
  exitCode : Int
  stdout : String
  stderr : String
deriving DecidableEq

/-- Python `str.strip` over the character list (defined directly so that
proofs can evaluate it on concrete strings). -/
def strip (s : String) : String :=
  ⟨((s.data.dropWhile Char.isWhitespace).reverse.dropWhile
      Char.isWhitespace).reverse⟩

/-- `lib/remote.ssh_run`: runs ssh, returns `None`; on a non-zero exit code it
prints one error line to stderr.  The model returns the list of printed
error lines (empty on success), mirroring that the Python function has no
return value beyond its printing. -/
def ssh_run (r : ProcResult) : List String :=
  if r.exitCode ≠ 0 then ["  SSH error: " ++ strip r.stderr] else []

/-- The transport `run` operation as worded by the spec: it returns the pair
(exit status, captured output).  Used to compare the spec's interface
against the code's `ssh_run`. -/
def run_spec (r : ProcResult) : Int × String := (r.exitCode, r.stdout)

/-- A remote filesystem: file content by absolute path; `none` = absent. -/
abbrev FS := String → Option String

/-- Stdout of the remote shell command `cat PATH 2>/dev/null || true`:
the file's content, or empty output when the file is absent or unreadable
(the `2>/dev/null || true` makes the command succeed with empty stdout). -/
def catOutput (fs : FS) (p : String) : String := (fs p).getD ""

/-- `lib/remote.ssh_read_file`: returns the captured stdout of
`cat PATH 2>/dev/null || true` on the remote filesystem. -/
def ssh_read_file (fs : FS) (p : String) : String := catOutput fs p

/-- `lib/remote.rsync_file`: `bool(result.stdout.strip())` — true exactly when
rsync's `--itemize-changes` stdout is nonempty after stripping. -/
def rsync_file (r : ProcResult) : Bool := strip r.stdout != ""

/-- One remote host: reachability, a per-remote-path rsync failure mode
(non-zero rsync exit with empty stdout), and its filesystem. -/
structure Host where
  reachable : Bool
  rsyncFail : String → Bool
  fs : FS

/-- The fleet, keyed by the ssh target string `user@domain`. -/
abbrev World := String → Host

/-- Point update of a remote filesystem. -/
def updateFS (fs : FS) (p c : String) : FS :=
  fun q => if q = p then some c else fs q

/-- Point update of the fleet. -/
def updateWorld (w : World) (t : String) (h : Host) : World :=
  fun u => if u = t then h else w u

/-- Ordered record of the side effects and status lines of one run. -/
inductive Event where
  | remoteRun (target cmd : String) (failed : Bool)
  | fileSync (target remotePath : String) (changed : Bool)
  | secretWrite (target path content : String)
  | line (s : String)
deriving DecidableEq

/-- The target a remote side effect acted on (`none` for printed lines). -/
def eventTarget : Event → Option String
  | .remoteRun t _ _ => some t
  | .fileSync t _ _ => some t
  | .secretWrite t _ _ => some t
  | .line _ => none

def isFileSync : Event → Bool
  | .fileSync _ _ _ => true
  | _ => false

def isSecretWrite : Event → Bool
  | .secretWrite _ _ _ => true
  | _ => false

/-- `ssh_run` against a host of the fleet: the command is attempted in all
cases; an unreachable host yields ssh exit code 255 with a connection
message on stderr, which `ssh_run` prints.  Directory creation commands do
not alter the modelled filesystem (only files are tracked). -/
def sshRunStep (w : World) (t cmd : String) : List Event :=
  if (w t).reachable then [.remoteRun t cmd false]
  else .remoteRun t cmd true ::
    (ssh_run ⟨255, "", "unreachable"⟩).map Event.line

/-- `rsync_file` against a host: when the host is reachable and rsync does not
fail on this path, the remote file becomes `content` and the reported flag is
the `--checksum` content comparison against the previous remote content;
any failing transfer leaves the remote unchanged and reports `false`
(non-zero rsync exit, empty stdout — see `rsync_file`). -/
def rsyncStep (w : World) (t rp content : String) : World × Bool :=
  let h := w t
  if h.reachable && !(h.rsyncFail rp) then
    (updateWorld w t { h with fs := updateFS h.fs rp content },
     h.fs rp != some content)
  else (w, false)

/-- `lib/remote.write_secret_remote` against a host: `check=True`, so a
failing ssh raises `CalledProcessError` and aborts the caller; on success the
remote file gets the secret content (owner-only permissions not tracked). -/
def writeSecretStep (w : World) (t path content : String) :
    Except String World :=
  if (w t).reachable then
    let h := w t
    .ok (updateWorld w t { h with fs := updateFS h.fs path content })
  else .error "CalledProcessError"

/-- Result of one command run: final fleet state, ordered events, and
`some message` when the process aborted (`sys.exit` or uncaught exception). -/
structure RunOut where
  world : World
  events : List Event
  err : Option String

/-- First-match lookup in an association list, as Python dict indexing over
the keys in insertion order. -/
def lookupKey {β : Type} : List (String × β) → String → Option β
  | [], _ => none
  | (k, v) :: rest, name => if k = name then some v else lookupKey rest name

/-- Python `str.removesuffix`. -/
def removesuffix (s suf : String) : String :=
  if List.isSuffixOf suf.data s.data then s.dropRight suf.length else s

namespace Traefik

/-- The `common` block of the traefik secrets mapping: the two Cloudflare
secrets read by `cmd_deploy`, the optional ssh defaults read by
`get_ssh_port` / `get_ssh_user`, and any further keys (visible to the
templates through the render context). -/
structure TraefikCommon where
  cf_email : String
  cf_api_token : String
  ssh_port : Option Nat
  ssh_user : Option String
  extra : List (String × String)
deriving DecidableEq

/-- One entry of `secrets['instances']`: the mandatory `domain`, the optional
per-instance ssh overrides, and the rest of the instance's data. -/
structure TraefikInstance where
  domain : String
  ssh_port : Option Nat
  ssh_user : Option String
  extra : List (String × String)
deriving DecidableEq

/-- The decrypted traefik secrets mapping: a `common` block plus the keyed
instance collection, in dict insertion order. -/
structure TraefikSecrets where
  common : TraefikCommon
  instances : List (String × TraefikInstance)
deriving DecidableEq

/-- `get_ssh_port`: instance-level overrides common, default 22.  The source
takes `(secrets, instance_name)` and indexes `secrets['instances']`; the
callers below pass the already looked-up instance. -/
def get_ssh_port (common : TraefikCommon) (inst : TraefikInstance) : Nat :=
  inst.ssh_port.getD (common.ssh_port.getD 22)

/-- `get_ssh_user`: instance-level overrides common, default `root`. -/
def get_ssh_user (common : TraefikCommon) (inst : TraefikInstance) : String :=
  inst.ssh_user.getD (common.ssh_user.getD "root")

/-- `get_target`: `(user@domain, port)` for an instance. -/
def get_target (common : TraefikCommon) (inst : TraefikInstance) :
    String × Nat :=
  (get_ssh_user common inst ++ "@" ++ inst.domain, get_ssh_port common inst)

/-- The render context built by `build_context`: the dict
`\x7b'common': secrets['common'], 'instance': instance\x7d`. -/
structure RenderCtx where
  common : TraefikCommon
  inst : TraefikInstance
deriving DecidableEq

/-- `build_context(secrets, instance_name)`; the source indexes
`secrets['instances'][instance_name]` (the callers guard membership first,
so the lookup is modelled as returning an `Option`). -/
def build_context (s : TraefikSecrets) (name : String) : Option RenderCtx :=
  (lookupKey s.instances name).map (fun i => ⟨s.common, i⟩)

def REMOTE_BASE : String := "/opt/podman/traefik"

/-- The `files` dict of `cmd_deploy`: template → (local name, remote path). -/
def traefikFiles : List (String × String × String) :=
  [("traefik.yml.j2", "traefik.yml",
    "/opt/podman/traefik/settings/traefik.yml"),
   ("dynamic1.yml.j2", "dynamic1.yml",
    "/opt/podman/traefik/settings/dynamic/dynamic1.yml"),
   ("traefik.container.j2", "traefik.container",
    "/etc/containers/systemd/traefik.container")]

/-- The `files` dict of `cmd_diff`: template → remote path. -/
def traefikDiffFiles : List (String × String) :=
  [("traefik.yml.j2", "/opt/podman/traefik/settings/traefik.yml"),
   ("dynamic1.yml.j2", "/opt/podman/traefik/settings/dynamic/dynamic1.yml")]

def traefikMkdirCmd : String :=
  "mkdir -p /opt/podman/traefik/settings/dynamic " ++
  "/opt/podman/traefik/google_acme /opt/podman/traefik/logs"

def traefikRestartCmd : String :=
  "systemctl daemon-reload && systemctl restart traefik"

/-- The per-file loop of `cmd_deploy`, written as structural recursion over
the file list: render, write to the transient local file, `rsync_file` to the
remote path, record and print the per-file change flag, and OR the flags
into the aggregate `changed`. -/
def syncLoop (render : String → RenderCtx → String) (ctx : RenderCtx)
    (t : String) : List (String × String × String) → World →
    World × List Event × Bool
  | [], w => (w, [], false)
  | f :: rest, w =>
    let rendered := render f.1 ctx
    let res := rsyncStep w t f.2.2 rendered
    let tail := syncLoop render ctx t rest res.1
    (tail.1,
     Event.fileSync t f.2.2 res.2 ::
       Event.line (if res.2 then "  → " ++ f.2.1 ++ " updated"
                   else "  ✓ " ++ f.2.1 ++ " unchanged") :: tail.2.1,
     res.2 || tail.2.2)

/-- `traefik/deploy.cmd_deploy`: guard the instance name (`sys.exit(1)` on a
missing instance), build the context and target, create the remote
directories, sync every file accumulating the change flags, write the two
Cloudflare secrets unconditionally, then restart exactly when
`restart and changed`, reporting a no-op when nothing changed. -/
def cmd_deploy (render : String → RenderCtx → String) (s : TraefikSecrets)
    (name : String) (restart : Bool) (w : World) : RunOut :=
  match lookupKey s.instances name with
  | none => ⟨w, [], some ("Instance '" ++ name ++ "' not found")⟩
  | some inst =>
    let ctx : RenderCtx := ⟨s.common, inst⟩
    let t := (get_target s.common inst).1
    let ev0 := [Event.line ("→ deploying " ++ name ++ " (" ++ t ++ ")")]
    let ev1 := sshRunStep w t traefikMkdirCmd
    let lres := syncLoop render ctx t traefikFiles w
    let w2 := lres.1
    let evF := lres.2.1
    let changed := lres.2.2
    match writeSecretStep w2 t (REMOTE_BASE ++ "/cf_email")
        s.common.cf_email with
    | .error m => ⟨w2, ev0 ++ ev1 ++ evF, some m⟩
    | .ok w3 =>
      match writeSecretStep w3 t (REMOTE_BASE ++ "/cf_token")
          s.common.cf_api_token with
      | .error m =>
        ⟨w3, ev0 ++ ev1 ++ evF ++
          [Event.secretWrite t (REMOTE_BASE ++ "/cf_email")
            s.common.cf_email], some m⟩
      | .ok w4 =>
        let evS :=
          [Event.secretWrite t (REMOTE_BASE ++ "/cf_email") s.common.cf_email,
           Event.secretWrite t (REMOTE_BASE ++ "/cf_token")
             s.common.cf_api_token,
           Event.line "  ✓ secrets written"]
        let evR :=
          if restart && changed then
            sshRunStep w4 t traefikRestartCmd ++
              [Event.line "  ✓ traefik restarted"]
          else if !changed then
            [Event.line "  ✓ no changes, skipping restart"]
          else []
        ⟨w4, ev0 ++ ev1 ++ evF ++ evS ++ evR ++
          [Event.line ("✓ " ++ name ++ " done")], none⟩

/-- `traefik/deploy.cmd_diff`: guard the instance name, then for each diff
file render locally, read the remote content, and print "no changes" or
"differs" (read-only: the remote `diff` preview subprocess runs locally on
two temp files and is not a remote side effect). -/
def cmd_diff (render : String → RenderCtx → String) (s : TraefikSecrets)
    (name : String) (w : World) : RunOut :=
  match lookupKey s.instances name with
  | none => ⟨w, [], some ("Instance '" ++ name ++ "' not found")⟩
  | some inst =>
    let ctx : RenderCtx := ⟨s.common, inst⟩
    let t := (get_target s.common inst).1
    let evs := traefikDiffFiles.map (fun f =>
      let nm := removesuffix f.1 ".j2"
      let rendered := render f.1 ctx
      let remote :=
        if (w t).reachable then ssh_read_file (w t).fs f.2 else ""
      if rendered = remote then Event.line ("✓ " ++ nm ++ " — no changes")
      else Event.line ("→ " ++ nm ++ " — differs:"))
    ⟨w, evs, none⟩

/-- `traefik/deploy.cmd_render`: guard the instance name, then print every
rendered template (no remote interaction at all). -/
def cmd_render (render : String → RenderCtx → String) (s : TraefikSecrets)
    (name : String) (w : World) : RunOut :=
  match lookupKey s.instances name with
  | none => ⟨w, [], some ("Instance '" ++ name ++ "' not found")⟩
  | some inst =>
    let ctx : RenderCtx := ⟨s.common, inst⟩
    let evs := ["traefik.yml.j2", "dynamic1.yml.j2",
                "traefik.container.j2"].map (fun tpl =>
      Event.line ("═══ " ++ removesuffix tpl ".j2" ++ " ═══ " ++
        render tpl ctx))
    ⟨w, evs, none⟩

/-- The per-instance loop of `traefik/deploy.main` for the `deploy` command:
instances are processed sequentially; an abort (uncaught exception or
`sys.exit`) stops the whole process, leaving later instances unprocessed. -/
def deploy_all (render : String → RenderCtx → String) (s : TraefikSecrets)
    (names : List String) (restart : Bool) (w : World) : RunOut :=
  match names with
  | [] => ⟨w, [], none⟩
  | nm :: rest =>
    let r := cmd_deploy render s nm restart w
    match r.err with
    | some m => ⟨r.world, r.events, some m⟩
    | none =>
      let tail := deploy_all render s rest restart r.world
      ⟨tail.world, r.events ++ tail.events, tail.err⟩

end Traefik

namespace Synapse

/-- The decrypted synapse secrets: the `ssh` block (`host` mandatory,
`user`/`port` optional), `synapse.server_name`, the optional raw signing key
`synapse.signing_key` (`secrets.get('synapse', \x7b\x7d).get('signing_key')`, so
`none` models absence), plus whatever else the templates see. -/
structure SynapseSecrets where
  ssh_host : String
  ssh_user : Option String
  ssh_port : Option Nat
  server_name : String
  signing_key : Option String
  extra : List (String × String)
deriving DecidableEq

def synREMOTE_BASE : String := "/opt/podman/synapse"

/-- The `FILES` list; the `log.config.j2` remote path is computed
dynamically from `secrets['synapse']['server_name']`. -/
def FILES : List (String × Option String) :=
  [("synapse.pod.j2", some "/etc/containers/systemd/synapse.pod"),
   ("1-postgresql.container.j2",
    some "/etc/containers/systemd/1-postgresql.container"),
   ("2-synapse.container.j2",
    some "/etc/containers/systemd/2-synapse.container"),
   ("homeserver.yaml.j2", some "/opt/podman/synapse/data/homeserver.yaml"),
   ("log.config.j2", none)]

def synMkdirCmd : String :=
  "mkdir -p /opt/podman/synapse/data /opt/podman/synapse/db"

def synRestartCmd : String :=
  "systemctl daemon-reload && systemctl restart synapse-pod"

/-- `synapse/deploy.get_target`: `(user@host, port)` from the `ssh` block. -/
def get_target (s : SynapseSecrets) : String × Nat :=
  (s.ssh_user.getD "root" ++ "@" ++ s.ssh_host, s.ssh_port.getD 22)

/-- `synapse/deploy.get_remote_path`: a static remote path, or the
server-name-derived path for `log.config.j2`; raises `ValueError` for any
other path-less template. -/
def get_remote_path (tpl : String) (rp : Option String)
    (s : SynapseSecrets) : Except String String :=
  match rp with
  | some p => .ok p
  | none =>
    if tpl = "log.config.j2" then
      .ok (synREMOTE_BASE ++ "/data/" ++ s.server_name ++ ".log.config")
    else .error ("No remote path for " ++ tpl)

/-- The per-file loop of the synapse `cmd_deploy`, as structural recursion:
resolve the remote path (a raised `ValueError` aborts the loop), render,
sync, record the flag.  Result: fleet, events, aggregate `changed`, and the
abort message if any. -/
def synSyncLoop (render : String → SynapseSecrets → String)
    (s : SynapseSecrets) (t : String) :
    List (String × Option String) → World →
    World × List Event × Bool × Option String
  | [], w => (w, [], false, none)
  | f :: rest, w =>
    match get_remote_path f.1 f.2 s with
    | .error m => (w, [], false, some m)
    | .ok rp =>
      let rendered := render f.1 s
      let res := rsyncStep w t rp rendered
      let tail := synSyncLoop render s t rest res.1
      (tail.1,
       Event.fileSync t rp res.2 ::
         Event.line (if res.2 then
             "  → " ++ removesuffix f.1 ".j2" ++ " updated"
           else "  ✓ " ++ removesuffix f.1 ".j2" ++ " unchanged") ::
         tail.2.1,
       res.2 || tail.2.2.1, tail.2.2.2)

/-- `synapse/deploy.cmd_deploy`: create `SETUP_DIRS`, sync every file of
`FILES` accumulating the change flags, write the raw signing key whenever
`secrets.get('synapse', \x7b\x7d).get('signing_key')` is truthy (independently of
the change flags), then restart exactly when `not no_restart and changed`,
reporting "no changes" when nothing changed. -/
def cmd_deploy (render : String → SynapseSecrets → String)
    (s : SynapseSecrets) (no_restart : Bool) (w : World) : RunOut :=
  let t := (get_target s).1
  let ev0 := [Event.line ("→ deploying synapse to " ++ t)]
  let ev1 := sshRunStep w t synMkdirCmd
  let lres := synSyncLoop render s t FILES w
  match lres.2.2.2 with
  | some m => ⟨lres.1, ev0 ++ ev1 ++ lres.2.1, some m⟩
  | none =>
    let w2 := lres.1
    let evF := lres.2.1
    let changed := lres.2.2.1
    let sk := s.signing_key.getD ""
    let skPath := synREMOTE_BASE ++ "/data/" ++ s.server_name ++
      ".signing.key"
    let wsk : Except String (World × List Event) :=
      if sk ≠ "" then
        match writeSecretStep w2 t skPath sk with
        | .error m => .error m
        | .ok w3 =>
          .ok (w3, [Event.secretWrite t skPath sk,
                    Event.line "  ✓ signing key written"])
      else .ok (w2, [])
    match wsk with
    | .error m => ⟨w2, ev0 ++ ev1 ++ evF, some m⟩
    | .ok (w3, evS) =>
      let evR :=
        if !no_restart && changed then
          sshRunStep w3 t synRestartCmd ++ [Event.line "  ✓ restarted"]
        else if !changed then [Event.line "  ✓ no changes"]
        else []
      ⟨w3, ev0 ++ ev1 ++ evF ++ evS ++ evR ++ [Event.line "✓ done"], none⟩

end Synapse

namespace Certs

def RENEW_DAYS : Int := 30

/-- The renewal decision at the head of `certs/deploy.issue`: given whether
the stored certificate exists, the `--force` flag, and the readable expiry
expressed as days until expiry (`none` when `read_expiry` failed), return
whether `issue` proceeds to reissue, together with the printed lines.
`issue` returns `False` (no reissuance) exactly when it does not proceed. -/
def issue_decision (crtExists force : Bool) (days : Option Int) :
    Bool × List String :=
  if crtExists && !force then
    match days with
    | some d =>
      if d > RENEW_DAYS then
        (false,
         ["  valid for " ++ toString d ++ " days, skipping (--force to override)"])
      else (true, [])
    | none => (true, [])
  else (true, [])

/-- Python `", ".join`. -/
def joinComma : List String → String
  | [] => ""
  | [x] => x
  | x :: y :: xs => x ++ ", " ++ joinComma (y :: xs)

/-- The target filter at the head of `certs/deploy.distribute`: with an
`only_host` argument the target list is filtered to that host, and an
unknown host aborts (`sys.exit(1)`) with an error naming the host and
listing every configured target host — all before any remote operation. -/
def distribute_filter (targets : List String) (only_host : Option String) :
    Except String (List String) :=
  match only_host with
  | none => .ok targets
  | some h =>
    let ts := targets.filter (fun t => t = h)
    if ts.isEmpty then
      .error ("ERROR: '" ++ h ++ "' not in targets (" ++
        joinComma targets ++ ")")
    else .ok ts

end Certs

/-! Helper lemmas about the fleet model. -/

lemma updateWorld_self (w : World) (t : String) (h : Host) :
    updateWorld w t h t = h := by
  simp [updateWorld]

lemma updateWorld_other (w : World) (t : String) (h : Host) (u : String)
    (hu : u ≠ t) : updateWorld w t h u = w u := by
  simp [updateWorld, hu]

lemma rsyncStep_reachable (w : World) (t rp c u : String) :
    ((rsyncStep w t rp c).1 u).reachable = (w u).reachable := by
  unfold rsyncStep
  dsimp only
  split
  · by_cases hu : u = t
    · subst hu; simp [updateWorld]
    · simp [updateWorld, hu]
  · rfl

lemma rsyncStep_rsyncFail (w : World) (t rp c u : String) :
    ((rsyncStep w t rp c).1 u).rsyncFail = (w u).rsyncFail := by
  unfold rsyncStep
  dsimp only
  split
  · by_cases hu : u = t
    · subst hu; simp [updateWorld]
    · simp [updateWorld, hu]
  · rfl

lemma rsyncStep_fs_other (w : World) (t rp c : String) (u p : String)
    (hp : p ≠ rp) : ((rsyncStep w t rp c).1 u).fs p = (w u).fs p := by
  unfold rsyncStep
  dsimp only
  split
  · by_cases hu : u = t
    · subst hu; simp [updateWorld, updateFS, hp]
    · simp [updateWorld, hu]
  · rfl

lemma rsyncStep_ok (w : World) (t rp c : String)
    (hre : (w t).reachable = true) (hrf : (w t).rsyncFail rp = false) :
    rsyncStep w t rp c =
      (updateWorld w t { w t with fs := updateFS (w t).fs rp c },
       (w t).fs rp != some c) := by
  unfold rsyncStep
  simp [hre, hrf]

lemma rsyncStep_failed (w : World) (t rp c : String)
    (hf : ¬((w t).reachable = true ∧ (w t).rsyncFail rp = false)) :
    rsyncStep w t rp c = (w, false) := by
  unfold rsyncStep
  dsimp only
  split
  · rename_i hcond
    exfalso
    apply hf
    constructor
    · exact (Bool.and_eq_true _ _ ▸ hcond).1
    · have := (Bool.and_eq_true _ _ ▸ hcond).2
      simpa using this
  · rfl

lemma sshRunStep_reach (w : World) (t cmd : String)
    (h : (w t).reachable = true) :
    sshRunStep w t cmd = [Event.remoteRun t cmd false] := by
  unfold sshRunStep
  rw [if_pos h]

namespace Traefik

variable {render : String → RenderCtx → String} {ctx : RenderCtx} {t : String}

lemma syncLoop_reachable (files : List (String × String × String))
    (w : World) (u : String) :
    ((syncLoop render ctx t files w).1 u).reachable = (w u).reachable := by
  induction files generalizing w with
  | nil => rfl
  | cons f rest ih =>
    rw [syncLoop]
    dsimp only
    rw [ih, rsyncStep_reachable]

lemma syncLoop_rsyncFail (files : List (String × String × String))
    (w : World) (u : String) :
    ((syncLoop render ctx t files w).1 u).rsyncFail = (w u).rsyncFail := by
  induction files generalizing w with
  | nil => rfl
  | cons f rest ih =>
    rw [syncLoop]
    dsimp only
    rw [ih, rsyncStep_rsyncFail]

lemma syncLoop_fs_other (files : List (String × String × String))
    (w : World) (u p : String)
    (hp : p ∉ files.map (fun f => f.2.2)) :
    ((syncLoop render ctx t files w).1 u).fs p = (w u).fs p := by
  induction files generalizing w with
  | nil => rfl
  | cons f rest ih =>
    rw [syncLoop]
    dsimp only
    simp only [List.map_cons, List.mem_cons, not_or] at hp
    rw [ih _ hp.2, rsyncStep_fs_other _ _ _ _ _ _ hp.1]

lemma syncLoop_events_shape (files : List (String × String × String))
    (w : World) (e : Event) (he : e ∈ (syncLoop render ctx t files w).2.1) :
    (∃ p b, e = Event.fileSync t p b) ∨ (∃ s, e = Event.line s) := by
  induction files generalizing w with
  | nil => simp [syncLoop] at he
  | cons f rest ih =>
    rw [syncLoop] at he
    dsimp only at he
    simp only [List.mem_cons] at he
    rcases he with he | he | he
    · exact Or.inl ⟨_, _, he⟩
    · exact Or.inr ⟨_, he⟩
    · exact ih _ he

lemma syncLoop_changed_iff (files : List (String × String × String))
    (w : World) :
    (syncLoop render ctx t files w).2.2 = true ↔
      ∃ p, Event.fileSync t p true ∈ (syncLoop render ctx t files w).2.1 := by
  induction files generalizing w with
  | nil => simp [syncLoop]
  | cons f rest ih =>
    rw [syncLoop]
    dsimp only
    constructor
    · intro hch
      rw [Bool.or_eq_true] at hch
      rcases hch with hc | hc
      · refine ⟨f.2.2, ?_⟩
        rw [hc]
        exact List.mem_cons_self _ _
      · rcases (ih _).1 hc with ⟨p, hp⟩
        exact ⟨p, by simp [hp]⟩
    · rintro ⟨p, hp⟩
      rw [Bool.or_eq_true]
      simp only [List.mem_cons] at hp
      rcases hp with hp | hp | hp
      · simp only [Event.fileSync.injEq] at hp
        exact Or.inl hp.2.2.symm
      · exact absurd hp (by simp)
      · exact Or.inr ((ih _).2 ⟨p, hp⟩)

lemma syncLoop_fs_sets (files : List (String × String × String))
    (w : World) (hre : (w t).reachable = true)
    (hrf : ∀ f ∈ files, (w t).rsyncFail f.2.2 = false)
    (hnd : (files.map (fun f => f.2.2)).Nodup)
    (f : String × String × String) (hf : f ∈ files) :
    ((syncLoop render ctx t files w).1 t).fs f.2.2 =
      some (render f.1 ctx) := by
  induction files generalizing w with
  | nil => cases hf
  | cons g rest ih =>
    rw [syncLoop]
    dsimp only
    have hg : (w t).rsyncFail g.2.2 = false := hrf g (List.mem_cons_self _ _)
    rw [rsyncStep_ok w t g.2.2 _ hre hg]
    simp only [List.map_cons, List.nodup_cons] at hnd
    have hre1 : ((updateWorld w t
        { w t with fs := updateFS (w t).fs g.2.2 (render g.1 ctx) }) t).reachable
        = true := by
      rw [updateWorld_self]; exact hre
    rcases List.mem_cons.mp hf with rfl | hf
    · rw [syncLoop_fs_other rest _ t f.2.2 hnd.1]
      simp [updateWorld, updateFS]
    · apply ih _ hre1 _ hnd.2 hf
      intro f' hf'
      rw [updateWorld_self]
      exact hrf f' (List.mem_cons_of_mem _ hf')

lemma syncLoop_nochange (files : List (String × String × String))
    (w : World) (hre : (w t).reachable = true)
    (hrf : ∀ f ∈ files, (w t).rsyncFail f.2.2 = false)
    (hnd : (files.map (fun f => f.2.2)).Nodup)
    (hfs : ∀ f ∈ files, (w t).fs f.2.2 = some (render f.1 ctx)) :
    (syncLoop render ctx t files w).2.2 = false ∧
      ∀ p b, Event.fileSync t p b ∈ (syncLoop render ctx t files w).2.1 →
        b = false := by
  induction files generalizing w with
  | nil => exact ⟨rfl, by simp [syncLoop]⟩
  | cons g rest ih =>
    rw [syncLoop]
    dsimp only
    have hg : (w t).rsyncFail g.2.2 = false := hrf g (List.mem_cons_self _ _)
    rw [rsyncStep_ok w t g.2.2 _ hre hg]
    simp only [List.map_cons, List.nodup_cons] at hnd
    have hflag : ((w t).fs g.2.2 != some (render g.1 ctx)) = false := by
      rw [hfs g (List.mem_cons_self _ _)]
      simp
    have hre1 : ((updateWorld w t
        { w t with fs := updateFS (w t).fs g.2.2 (render g.1 ctx) }) t).reachable
        = true := by
      rw [updateWorld_self]; exact hre
    have hrf1 : ∀ f ∈ rest, ((updateWorld w t
        { w t with fs := updateFS (w t).fs g.2.2 (render g.1 ctx) }) t).rsyncFail
        f.2.2 = false := by
      intro f' hf'
      rw [updateWorld_self]
      exact hrf f' (List.mem_cons_of_mem _ hf')
    have hfs1 : ∀ f ∈ rest, ((updateWorld w t
        { w t with fs := updateFS (w t).fs g.2.2 (render g.1 ctx) }) t).fs
        f.2.2 = some (render f.1 ctx) := by
      intro f' hf'
      rw [updateWorld_self]
      have hne : f'.2.2 ≠ g.2.2 := by
        intro hcontra
        exact hnd.1 (hcontra ▸ List.mem_map_of_mem (fun f => f.2.2) hf')
      simp only [updateFS, if_neg hne]
      exact hfs f' (List.mem_cons_of_mem _ hf')
    rcases ih _ hre1 hrf1 hnd.2 hfs1 with ⟨ihc, ihe⟩
    constructor
    · simp [hflag, ihc]
    · intro p b hb
      simp only [List.mem_cons] at hb
      rcases hb with hb | hb | hb
      · simp only [Event.fileSync.injEq] at hb
        rw [hb.2.2, hflag]
      · exact absurd hb (by simp)
      · exact ihe p b hb

lemma syncLoop_covers (files : List (String × String × String))
    (w : World) (f : String × String × String) (hf : f ∈ files) :
    ∃ b, Event.fileSync t f.2.2 b ∈ (syncLoop render ctx t files w).2.1 := by
  induction files generalizing w with
  | nil => cases hf
  | cons g rest ih =>
    rw [syncLoop]
    dsimp only
    rcases List.mem_cons.mp hf with rfl | hf
    · exact ⟨_, List.mem_cons_self _ _⟩
    · rcases ih (rsyncStep w t g.2.2 (render g.1 ctx)).1 hf with ⟨b, hb⟩
      exact ⟨b, by simp [hb]⟩

/-- The event trace of a completed traefik `cmd_deploy` on a reachable host,
abstracted over the per-file part of the sync loop and the aggregate
`changed` flag (proof-structuring abbreviation; see `cmd_deploy_shape`). -/
def deployEvents (t name : String) (common : TraefikCommon) (restart : Bool)
    (evF : List Event) (changed : Bool) : List Event :=
  Event.line ("→ deploying " ++ name ++ " (" ++ t ++ ")") ::
  Event.remoteRun t traefikMkdirCmd false ::
  (evF ++
   Event.secretWrite t (REMOTE_BASE ++ "/cf_email") common.cf_email ::
   Event.secretWrite t (REMOTE_BASE ++ "/cf_token") common.cf_api_token ::
   Event.line "  ✓ secrets written" ::
   ((if restart && changed then
       [Event.remoteRun t traefikRestartCmd false,
        Event.line "  ✓ traefik restarted"]
     else if !changed then [Event.line "  ✓ no changes, skipping restart"]
     else []) ++
    [Event.line ("✓ " ++ name ++ " done")]))

lemma cmd_deploy_shape (render : String → RenderCtx → String)
    (s : TraefikSecrets) (name : String) (inst : TraefikInstance)
    (restart : Bool) (w : World)
    (hfound : lookupKey s.instances name = some inst)
    (hreach : (w ((get_target s.common inst).1)).reachable = true) :
    (cmd_deploy render s name restart w).events =
      deployEvents (get_target s.common inst).1 name s.common restart
        (syncLoop render ⟨s.common, inst⟩ (get_target s.common inst).1
          traefikFiles w).2.1
        (syncLoop render ⟨s.common, inst⟩ (get_target s.common inst).1
          traefikFiles w).2.2 ∧
    (cmd_deploy render s name restart w).err = none ∧
    (∀ u, ((cmd_deploy render s name restart w).world u).reachable =
      (w u).reachable) ∧
    (∀ u, ((cmd_deploy render s name restart w).world u).rsyncFail =
      (w u).rsyncFail) ∧
    (∀ p, p ≠ REMOTE_BASE ++ "/cf_email" → p ≠ REMOTE_BASE ++ "/cf_token" →
      ((cmd_deploy render s name restart w).world
          ((get_target s.common inst).1)).fs p =
        ((syncLoop render ⟨s.common, inst⟩ (get_target s.common inst).1
          traefikFiles w).1 ((get_target s.common inst).1)).fs p) := by
  unfold cmd_deploy
  rw [hfound]
  dsimp only
  have hre2 : ((syncLoop render ⟨s.common, inst⟩ (get_target s.common inst).1
      traefikFiles w).1 ((get_target s.common inst).1)).reachable = true := by
    rw [syncLoop_reachable]; exact hreach
  rw [show writeSecretStep (syncLoop render ⟨s.common, inst⟩
      (get_target s.common inst).1 traefikFiles w).1
      ((get_target s.common inst).1) (REMOTE_BASE ++ "/cf_email")
      s.common.cf_email = Except.ok _ from by
    unfold writeSecretStep; rw [if_pos hre2]]
  dsimp only
  rw [show writeSecretStep (updateWorld (syncLoop render ⟨s.common, inst⟩
      (get_target s.common inst).1 traefikFiles w).1
      ((get_target s.common inst).1)
      { (syncLoop render ⟨s.common, inst⟩ (get_target s.common inst).1
          traefikFiles w).1 ((get_target s.common inst).1) with
        fs := updateFS ((syncLoop render ⟨s.common, inst⟩
          (get_target s.common inst).1 traefikFiles w).1
          ((get_target s.common inst).1)).fs
          (REMOTE_BASE ++ "/cf_email") s.common.cf_email })
      ((get_target s.common inst).1) (REMOTE_BASE ++ "/cf_token")
      s.common.cf_api_token = Except.ok _ from by
    unfold writeSecretStep
    rw [if_pos (by rw [updateWorld_self]; exact hre2)]]
  dsimp only
  refine ⟨?_, rfl, ?_, ?_, ?_⟩
  · unfold deployEvents
    rw [sshRunStep_reach w _ _ hreach, sshRunStep_reach]
    · simp
    · simpa [updateWorld] using hre2
  · intro u
    by_cases hu : u = (get_target s.common inst).1
    · subst hu
      simp [updateWorld, syncLoop_reachable]
    · simp [updateWorld, hu, syncLoop_reachable]
  · intro u
    by_cases hu : u = (get_target s.common inst).1
    · subst hu
      simp [updateWorld, syncLoop_rsyncFail]
    · simp [updateWorld, hu, syncLoop_rsyncFail]
  · intro p hp1 hp2
    simp [updateWorld, updateFS, hp1, hp2]

lemma mem_deployEvents {e : Event} {t name : String} {common : TraefikCommon}
    {restart : Bool} {evF : List Event} {changed : Bool}
    (he : e ∈ deployEvents t name common restart evF changed) :
    e ∈ evF ∨ e = Event.remoteRun t traefikMkdirCmd false ∨
    e = Event.remoteRun t traefikRestartCmd false ∨
    e = Event.secretWrite t (REMOTE_BASE ++ "/cf_email") common.cf_email ∨
    e = Event.secretWrite t (REMOTE_BASE ++ "/cf_token")
      common.cf_api_token ∨
    (∃ s, e = Event.line s) := by
  unfold deployEvents at he
  simp only [List.mem_cons, List.mem_append, List.not_mem_nil,
    or_false] at he
  rcases he with he|he|he|he|he|he|he|he
  · exact Or.inr (Or.inr (Or.inr (Or.inr (Or.inr ⟨_, he⟩))))
  · exact Or.inr (Or.inl he)
  · exact Or.inl he
  · exact Or.inr (Or.inr (Or.inr (Or.inl he)))
  · exact Or.inr (Or.inr (Or.inr (Or.inr (Or.inl he))))
  · exact Or.inr (Or.inr (Or.inr (Or.inr (Or.inr ⟨_, he⟩))))
  · split at he
    · simp only [List.mem_cons, List.not_mem_nil, or_false] at he
      rcases he with he | he
      · exact Or.inr (Or.inr (Or.inl he))
      · exact Or.inr (Or.inr (Or.inr (Or.inr (Or.inr ⟨_, he⟩))))
    · split at he
      · simp only [List.mem_cons, List.not_mem_nil, or_false] at he
        exact Or.inr (Or.inr (Or.inr (Or.inr (Or.inr ⟨_, he⟩))))
      · cases he
  · exact Or.inr (Or.inr (Or.inr (Or.inr (Or.inr ⟨_, he⟩))))

lemma fileSync_mem_deployEvents_iff (t name : String)
    (common : TraefikCommon) (restart : Bool) (evF : List Event)
    (changed : Bool) (a p : String) (b : Bool) :
    Event.fileSync a p b ∈ deployEvents t name common restart evF changed ↔
      Event.fileSync a p b ∈ evF := by
  constructor
  · intro h
    rcases mem_deployEvents h with h|h|h|h|h|⟨sx, h⟩
    · exact h
    · exact absurd h (by simp)
    · exact absurd h (by simp)
    · exact absurd h (by simp)
    · exact absurd h (by simp)
    · exact absurd h (by simp)
  · intro h
    unfold deployEvents
    simp only [List.mem_cons, List.mem_append, List.mem_singleton]
    tauto

lemma restartRun_mem_deployEvents_iff (t name : String)
    (common : TraefikCommon) (restart : Bool) (evF : List Event)
    (changed : Bool)
    (hne : ∀ e ∈ evF, (∃ p b, e = Event.fileSync t p b) ∨
      (∃ s, e = Event.line s)) :
    Event.remoteRun t traefikRestartCmd false ∈
        deployEvents t name common restart evF changed ↔
      (restart && changed) = true := by
  constructor
  · intro h
    unfold deployEvents at h
    simp only [List.mem_cons, List.mem_append, List.mem_singleton] at h
    rcases h with h|h|h|h|h|h|h|h
    · exact absurd h (by simp)
    · simp only [Event.remoteRun.injEq] at h
      exact absurd h.2.1 (by decide)
    · rcases hne _ h with ⟨p, b, hx⟩ | ⟨sx, hx⟩ <;> exact absurd hx (by simp)
    · exact absurd h (by simp)
    · exact absurd h (by simp)
    · exact absurd h (by simp)
    · split at h
      · assumption
      · split at h
        · exact absurd (List.mem_singleton.mp h) (by simp)
        · cases h
    · exact absurd h (by simp)
  · intro hc
    unfold deployEvents
    rw [hc]
    simp

lemma noopLine_mem_deployEvents (t name : String) (common : TraefikCommon)
    (restart : Bool) (evF : List Event) (changed : Bool)
    (hc : changed = false) :
    Event.line "  ✓ no changes, skipping restart" ∈
      deployEvents t name common restart evF changed := by
  unfold deployEvents
  rw [hc]
  simp

lemma syncLoop_failed_file {render : String → RenderCtx → String}
    {ctx : RenderCtx} {t : String}
    (files : List (String × String × String)) (w : World)
    (f : String × String × String) (hf : f ∈ files)
    (hfail : ¬((w t).reachable = true ∧ (w t).rsyncFail f.2.2 = false)) :
    Event.fileSync t f.2.2 false ∈ (syncLoop render ctx t files w).2.1 ∧
    Event.line ("  ✓ " ++ f.2.1 ++ " unchanged") ∈
      (syncLoop render ctx t files w).2.1 := by
  induction files generalizing w with
  | nil => cases hf
  | cons g rest ih =>
    rw [syncLoop]
    dsimp only
    rcases List.mem_cons.mp hf with rfl | hf
    · rw [rsyncStep_failed w t f.2.2 _ hfail]
      constructor
      · exact List.mem_cons_self _ _
      · simp
    · have hfail1 : ¬(((rsyncStep w t g.2.2 (render g.1 ctx)).1 t).reachable
          = true ∧
          ((rsyncStep w t g.2.2 (render g.1 ctx)).1 t).rsyncFail f.2.2
          = false) := by
        rw [rsyncStep_reachable, rsyncStep_rsyncFail]
        exact hfail
      rcases ih (rsyncStep w t g.2.2 (render g.1 ctx)).1 hf hfail1 with
        ⟨h1, h2⟩
      exact ⟨by simp [h1], by simp [h2]⟩

/-- Every event of the traefik sync loop reaches the final trace of
`cmd_deploy`, in every outcome of the secret writes (a later abort does not
erase the already-performed sync side effects). -/
lemma cmd_deploy_events_sup (render : String → RenderCtx → String)
    (s : TraefikSecrets) (name : String) (inst : TraefikInstance)
    (restart : Bool) (w : World)
    (hfound : lookupKey s.instances name = some inst)
    (e : Event)
    (he : e ∈ (syncLoop render ⟨s.common, inst⟩
      ((get_target s.common inst).1) traefikFiles w).2.1) :
    e ∈ (cmd_deploy render s name restart w).events := by
  unfold cmd_deploy
  rw [hfound]
  dsimp only
  cases hws : writeSecretStep (syncLoop render ⟨s.common, inst⟩
      ((get_target s.common inst).1) traefikFiles w).1
      ((get_target s.common inst).1) (REMOTE_BASE ++ "/cf_email")
      s.common.cf_email with
  | error m => simp [hws, he]
  | ok w3 =>
    cases hws2 : writeSecretStep w3 ((get_target s.common inst).1)
        (REMOTE_BASE ++ "/cf_token") s.common.cf_api_token with
    | error m => simp [hws, hws2, he]
    | ok w4 => simp [hws, hws2, he]

/-- The per-instance loop of `main --all` completes every instance when all
hosts are reachable: no abort, reachability preserved, and every instance's
every file produced a sync side effect in the accumulated trace. -/
lemma deploy_all_ok (render : String → RenderCtx → String)
    (s : TraefikSecrets) (restart : Bool) :
    ∀ (names : List String) (w : World),
    (∀ nm ∈ names, ∃ inst, lookupKey s.instances nm = some inst ∧
      (w ((get_target s.common inst).1)).reachable = true) →
    (deploy_all render s names restart w).err = none ∧
    (∀ u, ((deploy_all render s names restart w).world u).reachable =
      (w u).reachable) ∧
    (∀ nm ∈ names, ∀ inst, lookupKey s.instances nm = some inst →
      ∀ f ∈ traefikFiles, ∃ b,
        Event.fileSync ((get_target s.common inst).1) f.2.2 b ∈
          (deploy_all render s names restart w).events) := by
  intro names
  induction names with
  | nil =>
    intro w hall
    exact ⟨rfl, fun u => rfl, by simp⟩
  | cons nm rest ih =>
    intro w hall
    rcases hall nm (List.mem_cons_self _ _) with ⟨inst, hfound, hreach⟩
    have hshape := cmd_deploy_shape render s nm inst restart w hfound hreach
    rw [deploy_all]
    dsimp only
    rw [hshape.2.1]
    dsimp only
    have hall' : ∀ nm' ∈ rest, ∃ inst',
        lookupKey s.instances nm' = some inst' ∧
        (((cmd_deploy render s nm restart w).world
          ((get_target s.common inst').1)).reachable = true) := by
      intro nm' h'
      rcases hall nm' (List.mem_cons_of_mem _ h') with ⟨i', hf', hr'⟩
      refine ⟨i', hf', ?_⟩
      rw [hshape.2.2.1]
      exact hr'
    rcases ih ((cmd_deploy render s nm restart w).world) hall' with
      ⟨ihe, ihw, ihm⟩
    refine ⟨ihe, ?_, ?_⟩
    · intro u
      rw [ihw u, hshape.2.2.1 u]
    · intro nm' hnm' inst' hfound' f hf
      rcases List.mem_cons.mp hnm' with rfl | hnm'
      · rw [hfound] at hfound'
        injection hfound' with hinj
        subst hinj
        rcases syncLoop_covers traefikFiles w f hf with ⟨b, hb⟩
        refine ⟨b, List.mem_append_left _ ?_⟩
        rw [hshape.1]
        exact (fileSync_mem_deployEvents_iff _ _ _ _ _ _ _ _ _).mpr hb
      · rcases ihm nm' hnm' inst' hfound' f hf with ⟨b, hb⟩
        exact ⟨b, List.mem_append_right _ hb⟩

end Traefik

namespace Synapse

variable {render : String → SynapseSecrets → String} {s : SynapseSecrets}
  {t : String}

lemma synSyncLoop_reachable (files : List (String × Option String))
    (w : World) (u : String) :
    ((synSyncLoop render s t files w).1 u).reachable = (w u).reachable := by
  induction files generalizing w with
  | nil => rfl
  | cons f rest ih =>
    rw [synSyncLoop]
    cases hrp : get_remote_path f.1 f.2 s with
    | error m => rfl
    | ok rp =>
      dsimp only
      rw [ih, rsyncStep_reachable]

lemma synSyncLoop_err_none (files : List (String × Option String))
    (w : World)
    (hok : ∀ f ∈ files, ∃ rp, get_remote_path f.1 f.2 s = Except.ok rp) :
    (synSyncLoop render s t files w).2.2.2 = none := by
  induction files generalizing w with
  | nil => rfl
  | cons f rest ih =>
    rw [synSyncLoop]
    rcases hok f (List.mem_cons_self _ _) with ⟨rp, hrp⟩
    rw [hrp]
    dsimp only
    exact ih _ (fun f' hf' => hok f' (List.mem_cons_of_mem _ hf'))

lemma synSyncLoop_events_shape (files : List (String × Option String))
    (w : World) (e : Event)
    (he : e ∈ (synSyncLoop render s t files w).2.1) :
    (∃ p b, e = Event.fileSync t p b) ∨ (∃ m, e = Event.line m) := by
  induction files generalizing w with
  | nil => simp [synSyncLoop] at he
  | cons f rest ih =>
    rw [synSyncLoop] at he
    cases hrp : get_remote_path f.1 f.2 s with
    | error m =>
      rw [hrp] at he
      simp at he
    | ok rp =>
      rw [hrp] at he
      dsimp only at he
      simp only [List.mem_cons] at he
      rcases he with he | he | he
      · exact Or.inl ⟨_, _, he⟩
      · exact Or.inr ⟨_, he⟩
      · exact ih _ he

lemma synSyncLoop_changed_iff (files : List (String × Option String))
    (w : World) :
    (synSyncLoop render s t files w).2.2.1 = true ↔
      ∃ p, Event.fileSync t p true ∈ (synSyncLoop render s t files w).2.1 := by
  induction files generalizing w with
  | nil => simp [synSyncLoop]
  | cons f rest ih =>
    rw [synSyncLoop]
    cases hrp : get_remote_path f.1 f.2 s with
    | error m => simp
    | ok rp =>
      dsimp only
      constructor
      · intro hch
        rw [Bool.or_eq_true] at hch
        rcases hch with hc | hc
        · refine ⟨rp, ?_⟩
          rw [hc]
          exact List.mem_cons_self _ _
        · rcases (ih _).1 hc with ⟨p, hp⟩
          exact ⟨p, by simp [hp]⟩
      · rintro ⟨p, hp⟩
        rw [Bool.or_eq_true]
        simp only [List.mem_cons] at hp
        rcases hp with hp | hp | hp
        · simp only [Event.fileSync.injEq] at hp
          exact Or.inl hp.2.2.symm
        · exact absurd hp (by simp)
        · exact Or.inr ((ih _).2 ⟨p, hp⟩)

/-- The event trace of a completed synapse `cmd_deploy` on a reachable host
(proof-structuring abbreviation; see `syn_cmd_deploy_shape`). -/
def synDeployEvents (t : String) (s : SynapseSecrets) (no_restart : Bool)
    (evF : List Event) (changed : Bool) : List Event :=
  Event.line ("→ deploying synapse to " ++ t) ::
  Event.remoteRun t synMkdirCmd false ::
  (evF ++
   ((if s.signing_key.getD "" ≠ "" then
       [Event.secretWrite t
          (synREMOTE_BASE ++ "/data/" ++ s.server_name ++ ".signing.key")
          (s.signing_key.getD ""),
        Event.line "  ✓ signing key written"]
     else []) ++
    ((if !no_restart && changed then
        [Event.remoteRun t synRestartCmd false, Event.line "  ✓ restarted"]
      else if !changed then [Event.line "  ✓ no changes"] else []) ++
     [Event.line "✓ done"])))

lemma syn_cmd_deploy_shape (render : String → SynapseSecrets → String)
    (s : SynapseSecrets) (no_restart : Bool) (w : World)
    (hreach : (w ((get_target s).1)).reachable = true) :
    (cmd_deploy render s no_restart w).events =
      synDeployEvents (get_target s).1 s no_restart
        (synSyncLoop render s (get_target s).1 FILES w).2.1
        (synSyncLoop render s (get_target s).1 FILES w).2.2.1 ∧
    (cmd_deploy render s no_restart w).err = none := by
  have hok : ∀ f ∈ FILES, ∃ rp,
      get_remote_path f.1 f.2 s = Except.ok rp := by
    intro f hf
    unfold FILES at hf
    simp only [List.mem_cons, List.not_mem_nil, or_false] at hf
    rcases hf with rfl | rfl | rfl | rfl | rfl
    · exact ⟨_, rfl⟩
    · exact ⟨_, rfl⟩
    · exact ⟨_, rfl⟩
    · exact ⟨_, rfl⟩
    · exact ⟨synREMOTE_BASE ++ "/data/" ++ s.server_name ++ ".log.config",
        by simp [get_remote_path]⟩
  have herr := @synSyncLoop_err_none render s ((get_target s).1) FILES w hok
  have hre2 : ((synSyncLoop render s ((get_target s).1) FILES w).1
      ((get_target s).1)).reachable = true := by
    rw [synSyncLoop_reachable]
    exact hreach
  unfold cmd_deploy
  dsimp only
  rw [herr]
  dsimp only
  by_cases hsk : s.signing_key.getD "" ≠ ""
  · rw [if_pos hsk]
    rw [show writeSecretStep (synSyncLoop render s ((get_target s).1)
        FILES w).1 ((get_target s).1)
        (synREMOTE_BASE ++ "/data/" ++ s.server_name ++ ".signing.key")
        (s.signing_key.getD "") = Except.ok _ from by
      unfold writeSecretStep
      rw [if_pos hre2]]
    dsimp only
    refine ⟨?_, rfl⟩
    unfold synDeployEvents
    rw [if_pos hsk, sshRunStep_reach w _ _ hreach, sshRunStep_reach]
    · simp
    · simpa [updateWorld] using hre2
  · rw [if_neg hsk]
    dsimp only
    refine ⟨?_, rfl⟩
    unfold synDeployEvents
    rw [if_neg hsk, sshRunStep_reach w _ _ hreach, sshRunStep_reach]
    · simp
    · exact hre2

lemma mem_synDeployEvents {e : Event} {t : String} {s : SynapseSecrets}
    {no_restart : Bool} {evF : List Event} {changed : Bool}
    (he : e ∈ synDeployEvents t s no_restart evF changed) :
    e ∈ evF ∨ e = Event.remoteRun t synMkdirCmd false ∨
    e = Event.remoteRun t synRestartCmd false ∨
    e = Event.secretWrite t
      (synREMOTE_BASE ++ "/data/" ++ s.server_name ++ ".signing.key")
      (s.signing_key.getD "") ∨
    (∃ m, e = Event.line m) := by
  unfold synDeployEvents at he
  simp only [List.mem_cons, List.mem_append, List.not_mem_nil,
    or_false] at he
  rcases he with he|he|he|he|he
  · exact Or.inr (Or.inr (Or.inr (Or.inr ⟨_, he⟩)))
  · exact Or.inr (Or.inl he)
  · exact Or.inl he
  · split at he
    · simp only [List.mem_cons, List.not_mem_nil, or_false] at he
      rcases he with he | he
      · exact Or.inr (Or.inr (Or.inr (Or.inl he)))
      · exact Or.inr (Or.inr (Or.inr (Or.inr ⟨_, he⟩)))
    · cases he
  · rcases he with he | he
    · split at he
      · simp only [List.mem_cons, List.not_mem_nil, or_false] at he
        rcases he with he | he
        · exact Or.inr (Or.inr (Or.inl he))
        · exact Or.inr (Or.inr (Or.inr (Or.inr ⟨_, he⟩)))
      · split at he
        · simp only [List.mem_cons, List.not_mem_nil, or_false] at he
          exact Or.inr (Or.inr (Or.inr (Or.inr ⟨_, he⟩)))
        · cases he
    · exact Or.inr (Or.inr (Or.inr (Or.inr ⟨_, he⟩)))

lemma fileSync_mem_synDeployEvents_iff (t : String) (s : SynapseSecrets)
    (no_restart : Bool) (evF : List Event) (changed : Bool)
    (a p : String) (b : Bool) :
    Event.fileSync a p b ∈ synDeployEvents t s no_restart evF changed ↔
      Event.fileSync a p b ∈ evF := by
  constructor
  · intro h
    rcases mem_synDeployEvents h with h|h|h|h|⟨m, h⟩
    · exact h
    · exact absurd h (by simp)
    · exact absurd h (by simp)
    · exact absurd h (by simp)
    · exact absurd h (by simp)
  · intro h
    unfold synDeployEvents
    simp only [List.mem_cons, List.mem_append]
    tauto

lemma restartRun_mem_synDeployEvents_iff (t : String) (s : SynapseSecrets)
    (no_restart : Bool) (evF : List Event) (changed : Bool)
    (hne : ∀ e ∈ evF, (∃ p b, e = Event.fileSync t p b) ∨
      (∃ m, e = Event.line m)) :
    Event.remoteRun t synRestartCmd false ∈
        synDeployEvents t s no_restart evF changed ↔
      (!no_restart && changed) = true := by
  constructor
  · intro h
    unfold synDeployEvents at h
    simp only [List.mem_cons, List.mem_append, List.not_mem_nil,
      or_false] at h
    rcases h with h|h|h|h|h
    · exact absurd h (by simp)
    · simp only [Event.remoteRun.injEq] at h
      exact absurd h.2.1 (by decide)
    · rcases hne _ h with ⟨p, b, hx⟩ | ⟨m, hx⟩ <;> exact absurd hx (by simp)
    · split at h
      · simp only [List.mem_cons, List.not_mem_nil, or_false] at h
        rcases h with h | h <;> exact absurd h (by simp)
      · cases h
    · rcases h with h | h
      · split at h
        · assumption
        · split at h
          · simp only [List.mem_cons, List.not_mem_nil, or_false] at h
            exact absurd h (by simp)
          · cases h
      · exact absurd h (by simp)
  · intro hc
    unfold synDeployEvents
    rw [hc]
    simp

lemma noopLine_mem_synDeployEvents (t : String) (s : SynapseSecrets)
    (no_restart : Bool) (evF : List Event) (changed : Bool)
    (hc : changed = false) :
    Event.line "  ✓ no changes" ∈
      synDeployEvents t s no_restart evF changed := by
  unfold synDeployEvents
  rw [hc]
  simp

end Synapse

lemma sshRunStep_unreach (w : World) (t cmd : String)
    (h : (w t).reachable = false) :
    sshRunStep w t cmd =
      [Event.remoteRun t cmd true, Event.line "  SSH error: unreachable"] := by
  unfold sshRunStep ssh_run
  rw [if_neg (by rw [h]; exact Bool.false_ne_true)]
  rw [if_pos (by decide)]
  rw [show strip "unreachable" = "unreachable" from by decide]
  rfl

lemma mem_sshRunStep {w : World} {t cmd : String} {e : Event}
    (he : e ∈ sshRunStep w t cmd) :
    (∃ b, e = Event.remoteRun t cmd b) ∨ (∃ m, e = Event.line m) := by
  by_cases h : (w t).reachable = true
  · rw [sshRunStep_reach w t cmd h] at he
    simp only [List.mem_cons, List.not_mem_nil, or_false] at he
    exact Or.inl ⟨_, he⟩
  · rw [sshRunStep_unreach w t cmd (Bool.not_eq_true _ ▸ h)] at he
    simp only [List.mem_cons, List.not_mem_nil, or_false] at he
    rcases he with he | he
    · exact Or.inl ⟨_, he⟩
    · exact Or.inr ⟨_, he⟩

namespace Traefik

/-- The three possible event traces of `cmd_deploy` for a found instance:
abort at the first secret write, abort at the second secret write, or the
completed run (the final fleet of the completed run is abstracted). -/
lemma cmd_deploy_events_cases (render : String → RenderCtx → String)
    (s : TraefikSecrets) (name : String) (inst : TraefikInstance)
    (restart : Bool) (w : World)
    (hfound : lookupKey s.instances name = some inst) :
    (cmd_deploy render s name restart w).events =
      [Event.line ("→ deploying " ++ name ++ " (" ++
        (get_target s.common inst).1 ++ ")")] ++
      sshRunStep w ((get_target s.common inst).1) traefikMkdirCmd ++
      (syncLoop render ⟨s.common, inst⟩ ((get_target s.common inst).1)
        traefikFiles w).2.1 ∨
    (cmd_deploy render s name restart w).events =
      [Event.line ("→ deploying " ++ name ++ " (" ++
        (get_target s.common inst).1 ++ ")")] ++
      sshRunStep w ((get_target s.common inst).1) traefikMkdirCmd ++
      (syncLoop render ⟨s.common, inst⟩ ((get_target s.common inst).1)
        traefikFiles w).2.1 ++
      [Event.secretWrite ((get_target s.common inst).1)
        (REMOTE_BASE ++ "/cf_email") s.common.cf_email] ∨
    (∃ w4 : World, (cmd_deploy render s name restart w).events =
      [Event.line ("→ deploying " ++ name ++ " (" ++
        (get_target s.common inst).1 ++ ")")] ++
      sshRunStep w ((get_target s.common inst).1) traefikMkdirCmd ++
      (syncLoop render ⟨s.common, inst⟩ ((get_target s.common inst).1)
        traefikFiles w).2.1 ++
      [Event.secretWrite ((get_target s.common inst).1)
        (REMOTE_BASE ++ "/cf_email") s.common.cf_email,
       Event.secretWrite ((get_target s.common inst).1)
        (REMOTE_BASE ++ "/cf_token") s.common.cf_api_token,
       Event.line "  ✓ secrets written"] ++
      (if (restart && (syncLoop render ⟨s.common, inst⟩
            ((get_target s.common inst).1) traefikFiles w).2.2) = true then
         sshRunStep w4 ((get_target s.common inst).1) traefikRestartCmd ++
           [Event.line "  ✓ traefik restarted"]
       else if (!(syncLoop render ⟨s.common, inst⟩
            ((get_target s.common inst).1) traefikFiles w).2.2) = true then
         [Event.line "  ✓ no changes, skipping restart"]
       else []) ++
      [Event.line ("✓ " ++ name ++ " done")]) := by
  unfold cmd_deploy
  rw [hfound]
  dsimp only
  cases hws : writeSecretStep (syncLoop render ⟨s.common, inst⟩
      ((get_target s.common inst).1) traefikFiles w).1
      ((get_target s.common inst).1) (REMOTE_BASE ++ "/cf_email")
      s.common.cf_email with
  | error m =>
    dsimp only
    exact Or.inl rfl
  | ok w3 =>
    dsimp only
    cases hws2 : writeSecretStep w3 ((get_target s.common inst).1)
        (REMOTE_BASE ++ "/cf_token") s.common.cf_api_token with
    | error m =>
      dsimp only
      exact Or.inr (Or.inl rfl)
    | ok w4 =>
      dsimp only
      exact Or.inr (Or.inr ⟨w4, rfl⟩)

/-- In every outcome (including aborts on unreachable hosts), the restart
command event can only come from the restart branch, which requires the
aggregate `changed` flag: a restart run implies some file's sync reported a
change. -/
lemma cmd_deploy_restart_implies_sync (render : String → RenderCtx → String)
    (s : TraefikSecrets) (name : String) (inst : TraefikInstance)
    (restart : Bool) (w : World)
    (hfound : lookupKey s.instances name = some inst)
    (hmem : Event.remoteRun ((get_target s.common inst).1) traefikRestartCmd
      false ∈ (cmd_deploy render s name restart w).events) :
    ∃ p, Event.fileSync ((get_target s.common inst).1) p true ∈
      (cmd_deploy render s name restart w).events := by
  have hnotssh : ∀ (w' : World),
      Event.remoteRun ((get_target s.common inst).1) traefikRestartCmd false ∉
        sshRunStep w' ((get_target s.common inst).1) traefikMkdirCmd := by
    intro w' hc
    rcases mem_sshRunStep hc with ⟨b, hb⟩ | ⟨m, hb⟩
    · simp only [Event.remoteRun.injEq] at hb
      exact absurd hb.2.1 (by decide)
    · exact absurd hb (by simp)
  have hnotF :
      Event.remoteRun ((get_target s.common inst).1) traefikRestartCmd false ∉
        (syncLoop render ⟨s.common, inst⟩ ((get_target s.common inst).1)
          traefikFiles w).2.1 := by
    intro hc
    rcases syncLoop_events_shape traefikFiles w _ hc with ⟨p, b, hb⟩ | ⟨m, hb⟩
      <;> exact absurd hb (by simp)
  have hch : (syncLoop render ⟨s.common, inst⟩ ((get_target s.common inst).1)
      traefikFiles w).2.2 = true := by
    rcases cmd_deploy_events_cases render s name inst restart w hfound with
      hcase | hcase | ⟨w4, hcase⟩
    · rw [hcase] at hmem
      simp only [List.mem_append, List.mem_cons, List.not_mem_nil,
        or_false] at hmem
      rcases hmem with (hmem | hmem) | hmem
      · exact absurd hmem (by simp)
      · exact absurd hmem (hnotssh w)
      · exact absurd hmem hnotF
    · rw [hcase] at hmem
      simp only [List.mem_append, List.mem_cons, List.not_mem_nil,
        or_false] at hmem
      rcases hmem with ((hmem | hmem) | hmem) | hmem
      · exact absurd hmem (by simp)
      · exact absurd hmem (hnotssh w)
      · exact absurd hmem hnotF
      · exact absurd hmem (by simp)
    · rw [hcase] at hmem
      simp only [List.mem_append, List.mem_cons, List.not_mem_nil,
        or_false] at hmem
      rcases hmem with ((((hmem | hmem) | hmem) | hmem) | hmem) | hmem
      · exact absurd hmem (by simp)
      · exact absurd hmem (hnotssh w)
      · exact absurd hmem hnotF
      · rcases hmem with hmem | hmem | hmem
        · exact absurd hmem (by simp)
        · exact absurd hmem (by simp)
        · exact absurd hmem (by simp)
      · split at hmem
        · rename_i hcond
          exact (Bool.and_eq_true _ _ ▸ hcond).2
        · split at hmem
          · simp only [List.mem_cons, List.not_mem_nil, or_false] at hmem
            exact absurd hmem (by simp)
          · cases hmem
      · exact absurd hmem (by simp)
  rcases (syncLoop_changed_iff traefikFiles w).1 hch with ⟨p, hp⟩
  exact ⟨p, cmd_deploy_events_sup render s name inst restart w hfound _ hp⟩

end Traefik

/-! Substring containment, used to state what an error message mentions. -/

/-- Whether `needle` occurs as a contiguous substring of `hay`. -/
def hasSub : List Char → List Char → Bool
  | [], needle => needle == []
  | c :: rest, needle =>
    (needle == (c :: rest).take needle.length) || hasSub rest needle

/-- String version of `hasSub`. -/
def strContains (hay needle : String) : Bool := hasSub hay.data needle.data

lemma hasSub_nil_needle (l : List Char) : hasSub l [] = true := by
  cases l with
  | nil => rfl
  | cons c rest => simp [hasSub]

lemma hasSub_self_append (b v : List Char) : hasSub (b ++ v) b = true := by
  cases b with
  | nil => simpa using hasSub_nil_needle v
  | cons c bs =>
    rw [List.cons_append, hasSub, Bool.or_eq_true]
    left
    have htake : (c :: (bs ++ v)).take (c :: bs).length = c :: bs := by
      rw [← List.cons_append]
      exact List.take_left _ _
    rw [htake]
    simp

lemma hasSub_cover (u b v : List Char) : hasSub (u ++ (b ++ v)) b = true := by
  induction u with
  | nil => simpa using hasSub_self_append b v
  | cons c us ih =>
    rw [List.cons_append, hasSub, Bool.or_eq_true]
    right
    exact ih

lemma strContains_append (a b c : String) :
    strContains (a ++ (b ++ c)) b = true := by
  unfold strContains
  rw [String.data_append, String.data_append]
  exact hasSub_cover _ _ _

lemma joinComma_decomp (x : String) :
    ∀ l : List String, x ∈ l → ∃ u v, Certs.joinComma l = u ++ (x ++ v)
  | [], hx => absurd hx (List.not_mem_nil _)
  | y :: ys, hx => by
    rcases List.mem_cons.mp hx with rfl | hx
    · cases ys with
      | nil =>
        refine ⟨"", "", ?_⟩
        rw [Certs.joinComma, String.append_empty, String.empty_append]
      | cons z zs =>
        refine ⟨"", ", " ++ Certs.joinComma (z :: zs), ?_⟩
        rw [Certs.joinComma, String.empty_append, String.append_assoc]
    · cases ys with
      | nil => cases hx
      | cons z zs =>
        rcases joinComma_decomp x (z :: zs) hx with ⟨u, v, huv⟩
        refine ⟨y ++ ", " ++ u, v, ?_⟩
        rw [Certs.joinComma, huv]
        simp [String.append_assoc]

lemma strContains_joinComma (l : List String) (x : String) (hx : x ∈ l) :
    strContains (Certs.joinComma l) x = true := by
  rcases joinComma_decomp x l hx with ⟨u, v, huv⟩
  rw [huv]
  exact strContains_append u x v

/-! Concrete data used by the witnesses and counterexamples. -/

def exCommon : Traefik.TraefikCommon :=
  ⟨"ce@example.org", "tok123", none, none, []⟩

def exInst (d : String) : Traefik.TraefikInstance := ⟨d, none, none, []⟩

def exSecrets : Traefik.TraefikSecrets := ⟨exCommon, [("edge1", exInst "d1")]⟩

def exSecrets3 : Traefik.TraefikSecrets :=
  ⟨exCommon, [("i1", exInst "d1"), ("i2", exInst "d2"), ("i3", exInst "d3")]⟩

def exRender : String → Traefik.RenderCtx → String :=
  fun tpl _ => "content of " ++ tpl

def exHost : Host := ⟨true, fun _ => false, fun _ => none⟩

def exHostDown : Host := ⟨false, fun _ => false, fun _ => none⟩

def exWorld : World := fun _ => exHost

/-- Fleet in which the host of instance `i2` is unreachable. -/
def exWorldDown2 : World := fun u => if u = "root@d2" then exHostDown else exHost

def exSyn : Synapse.SynapseSecrets :=
  ⟨"h1", none, none, "matrix.example", some "KEYDATA", []⟩

def exSynRender : String → Synapse.SynapseSecrets → String :=
  fun tpl _ => "syn " ++ tpl

/-- Instance-data replacement used to state the isolation hyperproperty:
replace instance `b`'s data in the secrets mapping (a modification of one
instance's secrets, all other entries unchanged). -/
def setInstance (s : Traefik.TraefikSecrets) (b : String)
    (v : Traefik.TraefikInstance) : Traefik.TraefikSecrets :=
  ⟨s.common,
   s.instances.map (fun kv => if kv.1 = b then (kv.1, v) else kv)⟩

lemma lookupKey_setInstance (l : List (String × Traefik.TraefikInstance))
    (a b : String) (v : Traefik.TraefikInstance) (hab : a ≠ b) :
    lookupKey (l.map (fun kv => if kv.1 = b then (kv.1, v) else kv)) a =
      lookupKey l a := by
  induction l with
  | nil => rfl
  | cons kv rest ih =>
    obtain ⟨k, vv⟩ := kv
    simp only [List.map_cons]
    by_cases hk : k = b
    · rw [if_pos hk]
      rw [lookupKey, lookupKey]
      by_cases hka : k = a
      · exact absurd (hka.symm.trans hk) hab
      · rw [if_neg hka, if_neg hka]
        exact ih
    · rw [if_neg hk]
      rw [lookupKey, lookupKey]
      by_cases hka : k = a
      · rw [if_pos hka, if_pos hka]
      · rw [if_neg hka, if_neg hka]
        exact ih

/-! The claims. -/

/-- C9: certificate renewal threshold of `certs/deploy.issue`: with a stored
certificate, no `--force` and a readable expiry `d` days away, `issue` skips
reissuance exactly when `d` exceeds the 30-day threshold, reporting the days
remaining and returning false; at `d ≤ 30` (e.g. 25) it proceeds to
reissue. -/
theorem c9_renewal_threshold (d : Int) :
    (d > 30 → Certs.issue_decision true false (some d) =
      (false, ["  valid for " ++ toString d ++
        " days, skipping (--force to override)"])) ∧
    (¬ d > 30 → (Certs.issue_decision true false (some d)).1 = true) := by
  constructor
  · intro h
    simp [Certs.issue_decision, Certs.RENEW_DAYS, h]
  · intro h
    simp [Certs.issue_decision, Certs.RENEW_DAYS, h]

/-- C9 witness: the spec's 45-day and 25-day scenarios. -/
theorem c9_witness :
    ((45 : Int) > 30 ∧ Certs.issue_decision true false (some 45) =
      (false, ["  valid for 45 days, skipping (--force to override)"])) ∧
    (¬ (25 : Int) > 30 ∧ (Certs.issue_decision true false (some 25)).1
      = true) :=
  ⟨⟨by decide, (c9_renewal_threshold 45).1 (by decide)⟩,
   ⟨by decide, (c9_renewal_threshold 25).2 (by decide)⟩⟩

/-- C6 counterexample: the transport's `run` (`ssh_run`) does not return the
pair (exit status, captured output): two invocations whose captured outputs
differ (per the spec-side `run_spec`) are indistinguishable through
`ssh_run`, whose only outcome is the printed error lines (`None` return). -/
theorem c6_counterexample :
    ssh_run ⟨0, "out-a", ""⟩ = ssh_run ⟨0, "out-b", ""⟩ ∧
    run_spec ⟨0, "out-a", ""⟩ ≠ run_spec ⟨0, "out-b", ""⟩ :=
  ⟨rfl, by decide⟩

/-- C6 amended: `ssh_run` returns nothing; a non-zero remote exit status is
reported to the operator (one stderr line carrying the stripped captured
stderr) and a zero status prints nothing; the function is total, never
raising in either case. -/
theorem c6_run_reports_nonzero (r : ProcResult) :
    (r.exitCode ≠ 0 → ssh_run r = ["  SSH error: " ++ strip r.stderr]) ∧
    (r.exitCode = 0 → ssh_run r = []) := by
  constructor
  · intro h
    unfold ssh_run
    rw [if_pos h]
  · intro h
    unfold ssh_run
    rw [if_neg (by simp [h])]

/-- C6 witness: a failing and a succeeding invocation. -/
theorem c6_witness :
    ((1 : Int) ≠ 0 ∧ ssh_run ⟨1, "", "boom"⟩ =
      ["  SSH error: " ++ strip "boom"]) ∧
    ((0 : Int) = 0 ∧ ssh_run ⟨0, "ok", ""⟩ = []) :=
  ⟨⟨by decide, (c6_run_reports_nonzero ⟨1, "", "boom"⟩).1 (by decide)⟩,
   ⟨rfl, (c6_run_reports_nonzero ⟨0, "ok", ""⟩).2 rfl⟩⟩

/-- C5: multi-instance isolation of `build_context`: the render context of
instance A is the pair of the shared `common` block and A's own instance
data, so it is unchanged — as is any artifact rendered from it — under any
modification of a different instance B's secrets. -/
theorem c5_instance_isolation (s : Traefik.TraefikSecrets) (A B : String)
    (v : Traefik.TraefikInstance) (hBA : B ≠ A) :
    Traefik.build_context (setInstance s B v) A =
      Traefik.build_context s A ∧
    ∀ renderOne : Traefik.RenderCtx → String,
      (Traefik.build_context (setInstance s B v) A).map renderOne =
        (Traefik.build_context s A).map renderOne := by
  have h : Traefik.build_context (setInstance s B v) A =
      Traefik.build_context s A := by
    unfold Traefik.build_context setInstance
    rw [lookupKey_setInstance s.instances A B v (Ne.symm hBA)]
  exact ⟨h, fun renderOne => by rw [h]⟩

/-- C5 witness: replacing instance i2's data leaves i1's context intact. -/
theorem c5_witness :
    "i2" ≠ "i1" ∧
    Traefik.build_context (setInstance exSecrets3 "i2" (exInst "evil")) "i1" =
      Traefik.build_context exSecrets3 "i1" :=
  ⟨by decide,
   (c5_instance_isolation exSecrets3 "i1" "i2" (exInst "evil")
     (by decide)).1⟩

/-- C7: `ssh_read_file` returns the empty string when the remote file is
absent or unreadable (total, never failing), so `cmd_diff` against a
brand-new host whose filesystem is entirely empty reports every file as
differing — entirely new content — rather than erroring. -/
theorem c7_read_file_absent (fs : FS) (p : String)
    (render : String → Traefik.RenderCtx → String)
    (s : Traefik.TraefikSecrets) (name : String)
    (inst : Traefik.TraefikInstance) (w : World)
    (hfs : fs p = none)
    (hfound : lookupKey s.instances name = some inst)
    (hreach : (w ((Traefik.get_target s.common inst).1)).reachable = true)
    (hempty : ∀ q, (w ((Traefik.get_target s.common inst).1)).fs q = none)
    (hr1 : render "traefik.yml.j2" ⟨s.common, inst⟩ ≠ "")
    (hr2 : render "dynamic1.yml.j2" ⟨s.common, inst⟩ ≠ "") :
    ssh_read_file fs p = "" ∧
    (Traefik.cmd_diff render s name w).events =
      [Event.line "→ traefik.yml — differs:",
       Event.line "→ dynamic1.yml — differs:"] ∧
    (Traefik.cmd_diff render s name w).err = none := by
  refine ⟨?_, ?_, ?_⟩
  · unfold ssh_read_file catOutput
    rw [hfs]
    rfl
  · unfold Traefik.cmd_diff
    rw [hfound]
    dsimp only
    simp only [Traefik.traefikDiffFiles, List.map_cons, List.map_nil,
      hreach, if_true, ssh_read_file, catOutput, hempty, Option.getD_none]
    rw [if_neg hr1, if_neg hr2]
    decide
  · unfold Traefik.cmd_diff
    rw [hfound]

/-- C7 witness: an absent file reads as empty and a brand-new host diffs as
entirely new content for both files. -/
theorem c7_witness :
    (fun _ => (none : Option String)) "/etc/x" = none ∧
    ssh_read_file (fun _ => none) "/etc/x" = "" ∧
    (Traefik.cmd_diff exRender exSecrets "edge1" exWorld).events =
      [Event.line "→ traefik.yml — differs:",
       Event.line "→ dynamic1.yml — differs:"] :=
  ⟨rfl,
   (c7_read_file_absent (fun _ => none) "/etc/x" exRender exSecrets "edge1"
     (exInst "d1") exWorld rfl (by decide) (by decide) (fun q => rfl)
     (by decide) (by decide)).1,
   (c7_read_file_absent (fun _ => none) "/etc/x" exRender exSecrets "edge1"
     (exInst "d1") exWorld rfl (by decide) (by decide) (fun q => rfl)
     (by decide) (by decide)).2.1⟩

/-- C8 counterexample: the traefik missing-instance error identifies the
requested name but does not list the available instance names — for a
secrets mapping whose only instance is `edge1`, the error text for the
unknown name `nope` nowhere contains `edge1`; so render/diff/deploy do not
"list the available instance names" as claimed. -/
theorem c8_counterexample :
    (Traefik.cmd_deploy exRender exSecrets "nope" true exWorld).err =
      some "Instance 'nope' not found" ∧
    (Traefik.cmd_deploy exRender exSecrets "nope" true exWorld).events
      = [] ∧
    strContains "Instance 'nope' not found" "edge1" = false :=
  ⟨by decide, by decide, by decide⟩

/-- C8 amended: a missing instance makes traefik render/diff/deploy abort
with a fatal error that identifies the requested name, performing no remote
side effects (no events, fleet unchanged) — but without listing the
available names; the certs `distribute` guard, by contrast, aborts before
any remote operation with an error naming the unknown host and listing
every configured target host. -/
theorem c8_missing_instance (render : String → Traefik.RenderCtx → String)
    (s : Traefik.TraefikSecrets) (name : String) (restart : Bool) (w : World)
    (targets : List String) (h : String)
    (hnone : lookupKey s.instances name = none)
    (hnotin : h ∉ targets) :
    Traefik.cmd_deploy render s name restart w =
      ⟨w, [], some ("Instance '" ++ name ++ "' not found")⟩ ∧
    Traefik.cmd_diff render s name w =
      ⟨w, [], some ("Instance '" ++ name ++ "' not found")⟩ ∧
    Traefik.cmd_render render s name w =
      ⟨w, [], some ("Instance '" ++ name ++ "' not found")⟩ ∧
    strContains ("Instance '" ++ name ++ "' not found") name = true ∧
    ∃ m, Certs.distribute_filter targets (some h) = Except.error m ∧
      strContains m h = true ∧ ∀ x ∈ targets, strContains m x = true := by
  have hfe : targets.filter (fun t => t = h) = [] := by
    rw [List.filter_eq_nil_iff]
    intro a ha
    simp only [decide_eq_true_eq]
    intro hcontra
    exact hnotin (hcontra ▸ ha)
  refine ⟨?_, ?_, ?_, ?_, ?_⟩
  · unfold Traefik.cmd_deploy
    rw [hnone]
  · unfold Traefik.cmd_diff
    rw [hnone]
  · unfold Traefik.cmd_render
    rw [hnone]
  · rw [String.append_assoc]
    exact strContains_append _ _ _
  · refine ⟨"ERROR: '" ++ h ++ "' not in targets (" ++
      Certs.joinComma targets ++ ")", ?_, ?_, ?_⟩
    · unfold Certs.distribute_filter
      dsimp only
      rw [hfe]
      rfl
    · have hm : "ERROR: '" ++ h ++ "' not in targets (" ++
          Certs.joinComma targets ++ ")" =
          "ERROR: '" ++ (h ++ ("' not in targets (" ++
            (Certs.joinComma targets ++ ")"))) := by
        simp [String.append_assoc]
      rw [hm]
      exact strContains_append _ _ _
    · intro x hx
      rcases joinComma_decomp x targets hx with ⟨u, v, huv⟩
      have hm : "ERROR: '" ++ h ++ "' not in targets (" ++
          Certs.joinComma targets ++ ")" =
          ("ERROR: '" ++ h ++ "' not in targets (" ++ u) ++
            (x ++ (v ++ ")")) := by
        rw [huv]
        simp [String.append_assoc]
      rw [hm]
      exact strContains_append _ _ _

/-- Fleet whose hosts are reachable but where rsync fails on the
traefik.yml remote path. -/
def exWorldRf : World :=
  fun _ => ⟨true,
    fun p => p == "/opt/podman/traefik/settings/traefik.yml",
    fun _ => none⟩

/-- C10: a failed transfer — non-zero rsync exit with empty stdout — makes
`rsync_file` return false, so in deploy the file is recorded with change
flag false and printed "unchanged", exactly like an unchanged file; and
since a restart event always implies that some file's sync reported a
change, failed transfers on their own can never trigger the restart
command. -/
theorem c10_failed_transfer_unchanged (r : ProcResult)
    (render : String → Traefik.RenderCtx → String)
    (s : Traefik.TraefikSecrets) (name : String)
    (inst : Traefik.TraefikInstance) (restart : Bool) (w : World)
    (f : String × String × String)
    (hstdout : r.stdout = "")
    (hfound : lookupKey s.instances name = some inst)
    (hf : f ∈ Traefik.traefikFiles)
    (hfail : (w ((Traefik.get_target s.common inst).1)).rsyncFail f.2.2
      = true) :
    rsync_file r = false ∧
    Event.fileSync ((Traefik.get_target s.common inst).1) f.2.2 false ∈
      (Traefik.cmd_deploy render s name restart w).events ∧
    Event.line ("  ✓ " ++ f.2.1 ++ " unchanged") ∈
      (Traefik.cmd_deploy render s name restart w).events ∧
    (Event.remoteRun ((Traefik.get_target s.common inst).1)
        Traefik.traefikRestartCmd false ∈
        (Traefik.cmd_deploy render s name restart w).events →
      ∃ p, Event.fileSync ((Traefik.get_target s.common inst).1) p true ∈
        (Traefik.cmd_deploy render s name restart w).events) := by
  have hfail' : ¬(((w ((Traefik.get_target s.common inst).1)).reachable
      = true) ∧
      (w ((Traefik.get_target s.common inst).1)).rsyncFail f.2.2
      = false) := by
    rintro ⟨-, hc⟩
    rw [hfail] at hc
    cases hc
  have hsync := @Traefik.syncLoop_failed_file render ⟨s.common, inst⟩
    ((Traefik.get_target s.common inst).1) Traefik.traefikFiles w f hf hfail'
  refine ⟨?_, ?_, ?_, ?_⟩
  · unfold rsync_file
    rw [hstdout]
    decide
  · exact Traefik.cmd_deploy_events_sup render s name inst restart w hfound
      _ hsync.1
  · exact Traefik.cmd_deploy_events_sup render s name inst restart w hfound
      _ hsync.2
  · exact Traefik.cmd_deploy_restart_implies_sync render s name inst restart
      w hfound

/-- C10 witness: a concrete failed rsync and a concrete deploy where the
failing file is reported as unchanged. -/
theorem c10_witness :
    rsync_file ⟨12, "", "rsync: connection unexpectedly closed"⟩ = false ∧
    Event.fileSync "root@d1" "/opt/podman/traefik/settings/traefik.yml"
      false ∈
      (Traefik.cmd_deploy exRender exSecrets "edge1" true exWorldRf).events ∧
    Event.line "  ✓ traefik.yml unchanged" ∈
      (Traefik.cmd_deploy exRender exSecrets "edge1" true exWorldRf).events :=
  ⟨(c10_failed_transfer_unchanged
      ⟨12, "", "rsync: connection unexpectedly closed"⟩ exRender exSecrets
      "edge1" (exInst "d1") true exWorldRf
      ("traefik.yml.j2", "traefik.yml",
        "/opt/podman/traefik/settings/traefik.yml")
      rfl (by decide) (by decide) (by decide)).1,
   (c10_failed_transfer_unchanged
      ⟨12, "", "rsync: connection unexpectedly closed"⟩ exRender exSecrets
      "edge1" (exInst "d1") true exWorldRf
      ("traefik.yml.j2", "traefik.yml",
        "/opt/podman/traefik/settings/traefik.yml")
      rfl (by decide) (by decide) (by decide)).2.1,
   (c10_failed_transfer_unchanged
      ⟨12, "", "rsync: connection unexpectedly closed"⟩ exRender exSecrets
      "edge1" (exInst "d1") true exWorldRf
      ("traefik.yml.j2", "traefik.yml",
        "/opt/podman/traefik/settings/traefik.yml")
      rfl (by decide) (by decide) (by decide)).2.2.1⟩

/-- C1: restart gating.  On a reachable host and with restart not
suppressed (traefik `restart = true`, synapse `no_restart = false`), deploy
completes without error, and the restart command is executed if and only if
at least one file's sync reported its content changed; with zero changes no
restart event occurs and the run reports a no-op line instead of an
error. -/
theorem c1_restart_iff_changed
    (render : String → Traefik.RenderCtx → String)
    (s : Traefik.TraefikSecrets) (name : String)
    (inst : Traefik.TraefikInstance) (w : World)
    (renderS : String → Synapse.SynapseSecrets → String)
    (ss : Synapse.SynapseSecrets) (ws : World)
    (hfound : lookupKey s.instances name = some inst)
    (hreach : (w ((Traefik.get_target s.common inst).1)).reachable = true)
    (hreachS : (ws ((Synapse.get_target ss).1)).reachable = true) :
    ((Event.remoteRun ((Traefik.get_target s.common inst).1)
        Traefik.traefikRestartCmd false ∈
        (Traefik.cmd_deploy render s name true w).events ↔
      ∃ p, Event.fileSync ((Traefik.get_target s.common inst).1) p true ∈
        (Traefik.cmd_deploy render s name true w).events) ∧
     (Traefik.cmd_deploy render s name true w).err = none ∧
     ((¬ ∃ p, Event.fileSync ((Traefik.get_target s.common inst).1) p true ∈
        (Traefik.cmd_deploy render s name true w).events) →
       Event.line "  ✓ no changes, skipping restart" ∈
         (Traefik.cmd_deploy render s name true w).events ∧
       Event.remoteRun ((Traefik.get_target s.common inst).1)
         Traefik.traefikRestartCmd false ∉
         (Traefik.cmd_deploy render s name true w).events)) ∧
    ((Event.remoteRun ((Synapse.get_target ss).1) Synapse.synRestartCmd
        false ∈ (Synapse.cmd_deploy renderS ss false ws).events ↔
      ∃ p, Event.fileSync ((Synapse.get_target ss).1) p true ∈
        (Synapse.cmd_deploy renderS ss false ws).events) ∧
     (Synapse.cmd_deploy renderS ss false ws).err = none ∧
     ((¬ ∃ p, Event.fileSync ((Synapse.get_target ss).1) p true ∈
        (Synapse.cmd_deploy renderS ss false ws).events) →
       Event.line "  ✓ no changes" ∈
         (Synapse.cmd_deploy renderS ss false ws).events ∧
       Event.remoteRun ((Synapse.get_target ss).1) Synapse.synRestartCmd
         false ∉ (Synapse.cmd_deploy renderS ss false ws).events)) := by
  constructor
  · have hsh := Traefik.cmd_deploy_shape render s name inst true w hfound
      hreach
    have hne : ∀ e ∈ (Traefik.syncLoop render ⟨s.common, inst⟩
        ((Traefik.get_target s.common inst).1) Traefik.traefikFiles w).2.1,
        (∃ p b, e = Event.fileSync ((Traefik.get_target s.common inst).1)
          p b) ∨ (∃ m, e = Event.line m) :=
      fun e he => Traefik.syncLoop_events_shape Traefik.traefikFiles w e he
    have hfiff : ∀ p b,
        (Event.fileSync ((Traefik.get_target s.common inst).1) p b ∈
          (Traefik.cmd_deploy render s name true w).events ↔
        Event.fileSync ((Traefik.get_target s.common inst).1) p b ∈
          (Traefik.syncLoop render ⟨s.common, inst⟩
            ((Traefik.get_target s.common inst).1) Traefik.traefikFiles
            w).2.1) := by
      intro p b
      rw [hsh.1]
      exact Traefik.fileSync_mem_deployEvents_iff _ _ _ _ _ _ _ _ _
    have hriff : Event.remoteRun ((Traefik.get_target s.common inst).1)
        Traefik.traefikRestartCmd false ∈
        (Traefik.cmd_deploy render s name true w).events ↔
        (true && (Traefik.syncLoop render ⟨s.common, inst⟩
          ((Traefik.get_target s.common inst).1) Traefik.traefikFiles
          w).2.2) = true := by
      rw [hsh.1]
      exact Traefik.restartRun_mem_deployEvents_iff _ _ _ _ _ _ hne
    have hchanged := @Traefik.syncLoop_changed_iff render ⟨s.common, inst⟩
      ((Traefik.get_target s.common inst).1) Traefik.traefikFiles w
    refine ⟨?_, hsh.2.1, ?_⟩
    · rw [hriff, Bool.true_and, hchanged]
      exact exists_congr fun p => (hfiff p true).symm
    · intro hno
      have hch : (Traefik.syncLoop render ⟨s.common, inst⟩
          ((Traefik.get_target s.common inst).1) Traefik.traefikFiles
          w).2.2 = false := by
        rcases Bool.eq_false_or_eq_true (Traefik.syncLoop render
            ⟨s.common, inst⟩ ((Traefik.get_target s.common inst).1)
            Traefik.traefikFiles w).2.2 with hc | hc
        · rcases hchanged.1 hc with ⟨p, hp⟩
          exact absurd ⟨p, (hfiff p true).mpr hp⟩ hno
        · exact hc
      constructor
      · rw [hsh.1]
        exact Traefik.noopLine_mem_deployEvents _ _ _ _ _ _ hch
      · intro hmem
        have := hriff.1 hmem
        rw [hch] at this
        cases this
  · have hsh := Synapse.syn_cmd_deploy_shape renderS ss false ws hreachS
    have hne : ∀ e ∈ (Synapse.synSyncLoop renderS ss
        ((Synapse.get_target ss).1) Synapse.FILES ws).2.1,
        (∃ p b, e = Event.fileSync ((Synapse.get_target ss).1) p b) ∨
        (∃ m, e = Event.line m) :=
      fun e he => Synapse.synSyncLoop_events_shape Synapse.FILES ws e he
    have hfiff : ∀ p b,
        (Event.fileSync ((Synapse.get_target ss).1) p b ∈
          (Synapse.cmd_deploy renderS ss false ws).events ↔
        Event.fileSync ((Synapse.get_target ss).1) p b ∈
          (Synapse.synSyncLoop renderS ss ((Synapse.get_target ss).1)
            Synapse.FILES ws).2.1) := by
      intro p b
      rw [hsh.1]
      exact Synapse.fileSync_mem_synDeployEvents_iff _ _ _ _ _ _ _ _
    have hriff : Event.remoteRun ((Synapse.get_target ss).1)
        Synapse.synRestartCmd false ∈
        (Synapse.cmd_deploy renderS ss false ws).events ↔
        (!false && (Synapse.synSyncLoop renderS ss
          ((Synapse.get_target ss).1) Synapse.FILES ws).2.2.1) = true := by
      rw [hsh.1]
      exact Synapse.restartRun_mem_synDeployEvents_iff _ _ _ _ _ hne
    have hchanged := @Synapse.synSyncLoop_changed_iff renderS ss
      ((Synapse.get_target ss).1) Synapse.FILES ws
    refine ⟨?_, hsh.2, ?_⟩
    · rw [hriff, show (!false) = true from rfl, Bool.true_and, hchanged]
      exact exists_congr fun p => (hfiff p true).symm
    · intro hno
      have hch : (Synapse.synSyncLoop renderS ss
          ((Synapse.get_target ss).1) Synapse.FILES ws).2.2.1 = false := by
        rcases Bool.eq_false_or_eq_true (Synapse.synSyncLoop renderS ss
            ((Synapse.get_target ss).1) Synapse.FILES ws).2.2.1 with hc | hc
        · rcases hchanged.1 hc with ⟨p, hp⟩
          exact absurd ⟨p, (hfiff p true).mpr hp⟩ hno
        · exact hc
      constructor
      · rw [hsh.1]
        exact Synapse.noopLine_mem_synDeployEvents _ _ _ _ _ hch
      · intro hmem
        have := hriff.1 hmem
        rw [hch] at this
        cases this

/-- C1 witness: restart gating at a concrete traefik instance and the
concrete synapse secrets (first deploy onto an empty fleet). -/
theorem c1_witness :
    lookupKey exSecrets.instances "edge1" = some (exInst "d1") ∧
    (exWorld ((Traefik.get_target exSecrets.common (exInst "d1")).1)).reachable
      = true ∧
    (Traefik.cmd_deploy exRender exSecrets "edge1" true exWorld).err
      = none ∧
    (Synapse.cmd_deploy exSynRender exSyn false exWorld).err = none :=
  ⟨by decide, by decide,
   (c1_restart_iff_changed exRender exSecrets "edge1" (exInst "d1") exWorld
     exSynRender exSyn exWorld (by decide) (by decide) (by decide)).1.2.1,
   (c1_restart_iff_changed exRender exSecrets "edge1" (exInst "d1") exWorld
     exSynRender exSyn exWorld (by decide) (by decide) (by decide)).2.2.1⟩

/-- C3: secrets hooks are executed after the file-sync loop, unconditionally
with respect to the per-file change flags: a completed traefik deploy's
event trace splits as `pre ++ [cf_email write, cf_token write] ++ post`
where `pre` holds no secret write and `post` holds neither secret writes
nor file syncs; the same holds for the synapse signing-key write whenever
the key is present (truthy).  The split holds for every fleet state and
restart flag — in particular for a deploy in which zero files changed. -/
theorem c3_secrets_hooks_unconditional
    (render : String → Traefik.RenderCtx → String)
    (s : Traefik.TraefikSecrets) (name : String)
    (inst : Traefik.TraefikInstance) (restart : Bool) (w : World)
    (renderS : String → Synapse.SynapseSecrets → String)
    (ss : Synapse.SynapseSecrets) (no_restart : Bool) (ws : World)
    (hfound : lookupKey s.instances name = some inst)
    (hreach : (w ((Traefik.get_target s.common inst).1)).reachable = true)
    (hreachS : (ws ((Synapse.get_target ss).1)).reachable = true)
    (hsk : ss.signing_key.getD "" ≠ "") :
    (∃ pre post, (Traefik.cmd_deploy render s name restart w).events =
        pre ++
        [Event.secretWrite ((Traefik.get_target s.common inst).1)
          (Traefik.REMOTE_BASE ++ "/cf_email") s.common.cf_email,
         Event.secretWrite ((Traefik.get_target s.common inst).1)
          (Traefik.REMOTE_BASE ++ "/cf_token") s.common.cf_api_token] ++
        post ∧
      (∀ e ∈ pre, isSecretWrite e = false) ∧
      (∀ e ∈ post, isSecretWrite e = false ∧ isFileSync e = false)) ∧
    (∃ pre post, (Synapse.cmd_deploy renderS ss no_restart ws).events =
        pre ++
        [Event.secretWrite ((Synapse.get_target ss).1)
          (Synapse.synREMOTE_BASE ++ "/data/" ++ ss.server_name ++
            ".signing.key") (ss.signing_key.getD "")] ++ post ∧
      (∀ e ∈ pre, isSecretWrite e = false) ∧
      (∀ e ∈ post, isSecretWrite e = false ∧ isFileSync e = false)) := by
  constructor
  · have hsh := Traefik.cmd_deploy_shape render s name inst restart w hfound
      hreach
    refine ⟨Event.line ("→ deploying " ++ name ++ " (" ++
        (Traefik.get_target s.common inst).1 ++ ")") ::
        Event.remoteRun ((Traefik.get_target s.common inst).1)
          Traefik.traefikMkdirCmd false ::
        (Traefik.syncLoop render ⟨s.common, inst⟩
          ((Traefik.get_target s.common inst).1) Traefik.traefikFiles
          w).2.1,
      Event.line "  ✓ secrets written" ::
        ((if (restart && (Traefik.syncLoop render ⟨s.common, inst⟩
              ((Traefik.get_target s.common inst).1) Traefik.traefikFiles
              w).2.2) = true then
            [Event.remoteRun ((Traefik.get_target s.common inst).1)
              Traefik.traefikRestartCmd false,
             Event.line "  ✓ traefik restarted"]
          else if (!(Traefik.syncLoop render ⟨s.common, inst⟩
              ((Traefik.get_target s.common inst).1) Traefik.traefikFiles
              w).2.2) = true then
            [Event.line "  ✓ no changes, skipping restart"]
          else []) ++
         [Event.line ("✓ " ++ name ++ " done")]), ?_, ?_, ?_⟩
    · rw [hsh.1]
      unfold Traefik.deployEvents
      simp
    · intro e he
      simp only [List.mem_cons] at he
      rcases he with rfl | rfl | he
      · rfl
      · rfl
      · rcases Traefik.syncLoop_events_shape Traefik.traefikFiles w e he
          with ⟨p, b, rfl⟩ | ⟨m, rfl⟩ <;> rfl
    · intro e he
      simp only [List.mem_cons, List.mem_append, List.not_mem_nil,
        or_false] at he
      rcases he with rfl | he | rfl
      · exact ⟨rfl, rfl⟩
      · split at he
        · simp only [List.mem_cons, List.not_mem_nil, or_false] at he
          rcases he with rfl | rfl <;> exact ⟨rfl, rfl⟩
        · split at he
          · simp only [List.mem_cons, List.not_mem_nil, or_false] at he
            rw [he]
            exact ⟨rfl, rfl⟩
          · cases he
      · exact ⟨rfl, rfl⟩
  · have hsh := Synapse.syn_cmd_deploy_shape renderS ss no_restart ws
      hreachS
    refine ⟨Event.line ("→ deploying synapse to " ++
        (Synapse.get_target ss).1) ::
        Event.remoteRun ((Synapse.get_target ss).1) Synapse.synMkdirCmd
          false ::
        (Synapse.synSyncLoop renderS ss ((Synapse.get_target ss).1)
          Synapse.FILES ws).2.1,
      Event.line "  ✓ signing key written" ::
        ((if (!no_restart && (Synapse.synSyncLoop renderS ss
              ((Synapse.get_target ss).1) Synapse.FILES ws).2.2.1) = true
          then
            [Event.remoteRun ((Synapse.get_target ss).1)
              Synapse.synRestartCmd false,
             Event.line "  ✓ restarted"]
          else if (!(Synapse.synSyncLoop renderS ss
              ((Synapse.get_target ss).1) Synapse.FILES ws).2.2.1) = true
          then [Event.line "  ✓ no changes"]
          else []) ++
         [Event.line "✓ done"]), ?_, ?_, ?_⟩
    · rw [hsh.1]
      unfold Synapse.synDeployEvents
      rw [if_pos hsk]
      simp
    · intro e he
      simp only [List.mem_cons] at he
      rcases he with rfl | rfl | he
      · rfl
      · rfl
      · rcases Synapse.synSyncLoop_events_shape Synapse.FILES ws e he
          with ⟨p, b, rfl⟩ | ⟨m, rfl⟩ <;> rfl
    · intro e he
      simp only [List.mem_cons, List.mem_append, List.not_mem_nil,
        or_false] at he
      rcases he with rfl | he | rfl
      · exact ⟨rfl, rfl⟩
      · split at he
        · simp only [List.mem_cons, List.not_mem_nil, or_false] at he
          rcases he with rfl | rfl <;> exact ⟨rfl, rfl⟩
        · split at he
          · simp only [List.mem_cons, List.not_mem_nil, or_false] at he
            rw [he]
            exact ⟨rfl, rfl⟩
          · cases he
      · exact ⟨rfl, rfl⟩

/-- C3 witness: both secret writes occur in the concrete traefik deploy and
the signing-key write occurs in the concrete synapse deploy. -/
theorem c3_witness :
    lookupKey exSecrets.instances "edge1" = some (exInst "d1") ∧
    exSyn.signing_key.getD "" ≠ "" ∧
    (∃ pre post,
      (Traefik.cmd_deploy exRender exSecrets "edge1" true exWorld).events =
        pre ++
        [Event.secretWrite "root@d1" (Traefik.REMOTE_BASE ++ "/cf_email")
          "ce@example.org",
         Event.secretWrite "root@d1" (Traefik.REMOTE_BASE ++ "/cf_token")
          "tok123"] ++ post ∧
      (∀ e ∈ pre, isSecretWrite e = false) ∧
      (∀ e ∈ post, isSecretWrite e = false ∧ isFileSync e = false)) :=
  ⟨by decide, by decide,
   (c3_secrets_hooks_unconditional exRender exSecrets "edge1" (exInst "d1")
     true exWorld exSynRender exSyn false exWorld (by decide) (by decide)
     (by decide) (by decide)).1⟩

/-- C2 counterexample: the second of two consecutive deploys is not
side-effect-free beyond the idempotent directory creation — it still
performs the unconditional raw secret writes (here the Cloudflare email
secret is written to the remote again on the second run). -/
theorem c2_counterexample :
    Event.secretWrite "root@d1" "/opt/podman/traefik/cf_email"
        "ce@example.org" ∈
      (Traefik.cmd_deploy exRender exSecrets "edge1" true
        (Traefik.cmd_deploy exRender exSecrets "edge1" true
          exWorld).world).events := by
  decide

/-- C2 amended: deploying twice in succession (checksum-deciding transport,
reachable host, no rsync failures) yields a second run that completes, whose
per-file change flags are all false, that never runs the restart command and
reports the no-op instead, and whose side effects are only the idempotent
directory creation, the no-op content-identical syncs, and the unconditional
secret writes. -/
theorem c2_second_run_idempotent
    (render : String → Traefik.RenderCtx → String)
    (s : Traefik.TraefikSecrets) (name : String)
    (inst : Traefik.TraefikInstance) (restart : Bool) (w : World)
    (hfound : lookupKey s.instances name = some inst)
    (hreach : (w ((Traefik.get_target s.common inst).1)).reachable = true)
    (hrf : ∀ p, (w ((Traefik.get_target s.common inst).1)).rsyncFail p
      = false) :
    (Traefik.cmd_deploy render s name restart
      (Traefik.cmd_deploy render s name restart w).world).err = none ∧
    (∀ p b, Event.fileSync ((Traefik.get_target s.common inst).1) p b ∈
      (Traefik.cmd_deploy render s name restart
        (Traefik.cmd_deploy render s name restart w).world).events →
      b = false) ∧
    (∀ fl, Event.remoteRun ((Traefik.get_target s.common inst).1)
      Traefik.traefikRestartCmd fl ∉
      (Traefik.cmd_deploy render s name restart
        (Traefik.cmd_deploy render s name restart w).world).events) ∧
    Event.line "  ✓ no changes, skipping restart" ∈
      (Traefik.cmd_deploy render s name restart
        (Traefik.cmd_deploy render s name restart w).world).events ∧
    (∀ e ∈ (Traefik.cmd_deploy render s name restart
        (Traefik.cmd_deploy render s name restart w).world).events,
      (∃ m, e = Event.line m) ∨
      e = Event.remoteRun ((Traefik.get_target s.common inst).1)
        Traefik.traefikMkdirCmd false ∨
      (∃ p, e = Event.fileSync ((Traefik.get_target s.common inst).1)
        p false) ∨
      (∃ p c, e = Event.secretWrite ((Traefik.get_target s.common inst).1)
        p c)) := by
  have hsh1 := Traefik.cmd_deploy_shape render s name inst restart w hfound
    hreach
  have hreach1 : ((Traefik.cmd_deploy render s name restart w).world
      ((Traefik.get_target s.common inst).1)).reachable = true := by
    rw [hsh1.2.2.1]
    exact hreach
  have hrf1 : ∀ p, ((Traefik.cmd_deploy render s name restart w).world
      ((Traefik.get_target s.common inst).1)).rsyncFail p = false := by
    intro p
    rw [hsh1.2.2.2.1]
    exact hrf p
  have hfs1 : ∀ f ∈ Traefik.traefikFiles,
      ((Traefik.cmd_deploy render s name restart w).world
        ((Traefik.get_target s.common inst).1)).fs f.2.2 =
      some (render f.1 ⟨s.common, inst⟩) := by
    intro f hf
    simp only [Traefik.traefikFiles, List.mem_cons, List.not_mem_nil,
      or_false] at hf
    rcases hf with rfl | rfl | rfl <;>
      (rw [hsh1.2.2.2.2 _ (by decide) (by decide)]
       exact Traefik.syncLoop_fs_sets Traefik.traefikFiles w hreach
         (fun g hg => hrf g.2.2) (by decide) _ (by decide))
  have hsh2 := Traefik.cmd_deploy_shape render s name inst restart
    (Traefik.cmd_deploy render s name restart w).world hfound hreach1
  have hnch := @Traefik.syncLoop_nochange render ⟨s.common, inst⟩
    ((Traefik.get_target s.common inst).1) Traefik.traefikFiles
    (Traefik.cmd_deploy render s name restart w).world hreach1
    (fun g hg => hrf1 g.2.2) (by decide) hfs1
  have hne : ∀ e ∈ (Traefik.syncLoop render ⟨s.common, inst⟩
      ((Traefik.get_target s.common inst).1) Traefik.traefikFiles
      (Traefik.cmd_deploy render s name restart w).world).2.1,
      (∃ p b, e = Event.fileSync ((Traefik.get_target s.common inst).1)
        p b) ∨ (∃ m, e = Event.line m) :=
    fun e he => Traefik.syncLoop_events_shape Traefik.traefikFiles _ e he
  have hnorestart : Event.remoteRun ((Traefik.get_target s.common inst).1)
      Traefik.traefikRestartCmd false ∉
      (Traefik.cmd_deploy render s name restart
        (Traefik.cmd_deploy render s name restart w).world).events := by
    intro hmem
    rw [hsh2.1] at hmem
    have := (Traefik.restartRun_mem_deployEvents_iff _ _ _ _ _ _ hne).1 hmem
    rw [hnch.1, Bool.and_false] at this
    cases this
  refine ⟨hsh2.2.1, ?_, ?_, ?_, ?_⟩
  · intro p b hb
    rw [hsh2.1] at hb
    exact hnch.2 p b
      ((Traefik.fileSync_mem_deployEvents_iff _ _ _ _ _ _ _ _ _).mp hb)
  · intro fl hmem
    have hmem' := hmem
    rw [hsh2.1] at hmem'
    rcases Traefik.mem_deployEvents hmem' with h|h|h|h|h|⟨m, h⟩
    · rcases hne _ h with ⟨p, b, hx⟩ | ⟨m, hx⟩ <;> exact absurd hx (by simp)
    · simp only [Event.remoteRun.injEq] at h
      exact absurd h.2.1 (by decide)
    · simp only [Event.remoteRun.injEq] at h
      exact hnorestart (by rw [← h.2.2]; exact hmem)
    · exact absurd h (by simp)
    · exact absurd h (by simp)
    · exact absurd h (by simp)
  · rw [hsh2.1]
    exact Traefik.noopLine_mem_deployEvents _ _ _ _ _ _ hnch.1
  · intro e he
    have he' := he
    rw [hsh2.1] at he'
    rcases Traefik.mem_deployEvents he' with h|h|h|h|h|⟨m, h⟩
    · rcases hne _ h with ⟨p, b, hx⟩ | ⟨m, hx⟩
      · have hb : b = false := hnch.2 p b (hx ▸ h)
        exact Or.inr (Or.inr (Or.inl ⟨p, by rw [hx, hb]⟩))
      · exact Or.inl ⟨m, hx⟩
    · exact Or.inr (Or.inl h)
    · exact absurd (h ▸ he) hnorestart
    · exact Or.inr (Or.inr (Or.inr ⟨_, _, h⟩))
    · exact Or.inr (Or.inr (Or.inr ⟨_, _, h⟩))
    · exact Or.inl ⟨m, h⟩

/-- C2 witness: the amended idempotence at the concrete instance — the
second run completes and reports the no-op. -/
theorem c2_witness :
    lookupKey exSecrets.instances "edge1" = some (exInst "d1") ∧
    (Traefik.cmd_deploy exRender exSecrets "edge1" true
      (Traefik.cmd_deploy exRender exSecrets "edge1" true
        exWorld).world).err = none ∧
    Event.line "  ✓ no changes, skipping restart" ∈
      (Traefik.cmd_deploy exRender exSecrets "edge1" true
        (Traefik.cmd_deploy exRender exSecrets "edge1" true
          exWorld).world).events :=
  ⟨by decide,
   (c2_second_run_idempotent exRender exSecrets "edge1" (exInst "d1") true
     exWorld (by decide) (by decide) (fun p => rfl)).1,
   (c2_second_run_idempotent exRender exSecrets "edge1" (exInst "d1") true
     exWorld (by decide) (by decide) (fun p => rfl)).2.2.2.1⟩

/-- C4 counterexample: with three instances whose middle host is
unreachable, the multi-instance deploy aborts at instance i2's secret write
(uncaught `CalledProcessError`): instance i3 is never attempted (no event
touches its host), so per-target failures are not accumulated and a
transport failure does abort subsequent instances; moreover i2's failed
transfers were reported as ordinary "unchanged" files, not surfaced as
errors (instance i1 did complete, including its restart). -/
theorem c4_counterexample :
    (Traefik.deploy_all exRender exSecrets3 ["i1", "i2", "i3"] true
      exWorldDown2).err = some "CalledProcessError" ∧
    ((Traefik.deploy_all exRender exSecrets3 ["i1", "i2", "i3"] true
      exWorldDown2).events.all
        (fun e => eventTarget e != some "root@d3")) = true ∧
    Event.remoteRun "root@d1" Traefik.traefikRestartCmd false ∈
      (Traefik.deploy_all exRender exSecrets3 ["i1", "i2", "i3"] true
        exWorldDown2).events ∧
    Event.fileSync "root@d2" "/opt/podman/traefik/settings/traefik.yml"
        false ∈
      (Traefik.deploy_all exRender exSecrets3 ["i1", "i2", "i3"] true
        exWorldDown2).events ∧
    Event.line "  ✓ traefik.yml unchanged" ∈
      (Traefik.deploy_all exRender exSecrets3 ["i1", "i2", "i3"] true
        exWorldDown2).events :=
  ⟨by decide, by decide, by decide, by decide, by decide⟩

/-- C4 amended: a transport failure in the run/read/sync primitives never
raises: a failed sync is recorded as an ordinary "unchanged" file (not
surfaced as an error) and the remaining files of the instance are still
processed, in any fleet state; and in a multi-instance run whose secret
writes succeed (reachable hosts), every instance completes with no abort.
(The unamended claim fails because rsync failures are silent and a failed
secret write — e.g. an unreachable host — is process-fatal, aborting
subsequent instances; see the counterexample.) -/
theorem c4_failure_containment
    (render : String → Traefik.RenderCtx → String)
    (s : Traefik.TraefikSecrets) (name : String)
    (inst : Traefik.TraefikInstance) (restart : Bool) (w : World)
    (f : String × String × String)
    (hfound : lookupKey s.instances name = some inst)
    (hf : f ∈ Traefik.traefikFiles)
    (hfail : ¬(((w ((Traefik.get_target s.common inst).1)).reachable
      = true) ∧
      (w ((Traefik.get_target s.common inst).1)).rsyncFail f.2.2
      = false)) :
    (∀ g ∈ Traefik.traefikFiles, ∃ b,
      Event.fileSync ((Traefik.get_target s.common inst).1) g.2.2 b ∈
        (Traefik.cmd_deploy render s name restart w).events) ∧
    Event.fileSync ((Traefik.get_target s.common inst).1) f.2.2 false ∈
      (Traefik.cmd_deploy render s name restart w).events ∧
    Event.line ("  ✓ " ++ f.2.1 ++ " unchanged") ∈
      (Traefik.cmd_deploy render s name restart w).events ∧
    (∀ (names : List String) (w' : World),
      (∀ nm ∈ names, ∃ i, lookupKey s.instances nm = some i ∧
        (w' ((Traefik.get_target s.common i).1)).reachable = true) →
      (Traefik.deploy_all render s names restart w').err = none ∧
      (∀ nm ∈ names, ∀ i, lookupKey s.instances nm = some i →
        ∀ g ∈ Traefik.traefikFiles, ∃ b,
          Event.fileSync ((Traefik.get_target s.common i).1) g.2.2 b ∈
            (Traefik.deploy_all render s names restart w').events)) := by
  have hsync := @Traefik.syncLoop_failed_file render ⟨s.common, inst⟩
    ((Traefik.get_target s.common inst).1) Traefik.traefikFiles w f hf hfail
  refine ⟨?_, ?_, ?_, ?_⟩
  · intro g hg
    rcases @Traefik.syncLoop_covers render ⟨s.common, inst⟩
      ((Traefik.get_target s.common inst).1) Traefik.traefikFiles w g hg
      with ⟨b, hb⟩
    exact ⟨b, Traefik.cmd_deploy_events_sup render s name inst restart w
      hfound _ hb⟩
  · exact Traefik.cmd_deploy_events_sup render s name inst restart w hfound
      _ hsync.1
  · exact Traefik.cmd_deploy_events_sup render s name inst restart w hfound
      _ hsync.2
  · intro names w' hall
    exact ⟨(Traefik.deploy_all_ok render s restart names w' hall).1,
      (Traefik.deploy_all_ok render s restart names w' hall).2.2⟩

/-- C4 witness: the amended behaviour at concrete instances — the failing
transfer of the unreachable host i2 shows up as "unchanged", and the fully
reachable two-instance run completes. -/
theorem c4_witness :
    lookupKey exSecrets3.instances "i2" = some (exInst "d2") ∧
    Event.fileSync "root@d2" "/opt/podman/traefik/settings/traefik.yml"
        false ∈
      (Traefik.cmd_deploy exRender exSecrets3 "i2" true
        exWorldDown2).events ∧
    (Traefik.deploy_all exRender exSecrets3 ["i1", "i3"] true
      exWorld).err = none :=
  ⟨by decide,
   (c4_failure_containment exRender exSecrets3 "i2" (exInst "d2") true
     exWorldDown2
     ("traefik.yml.j2", "traefik.yml",
       "/opt/podman/traefik/settings/traefik.yml")
     (by decide) (by decide) (by decide)).2.1,
   ((c4_failure_containment exRender exSecrets3 "i2" (exInst "d2") true
     exWorldDown2
     ("traefik.yml.j2", "traefik.yml",
       "/opt/podman/traefik/settings/traefik.yml")
     (by decide) (by decide) (by decide)).2.2.2 ["i1", "i3"] exWorld
     (by
       intro nm hnm
       simp only [List.mem_cons, List.not_mem_nil, or_false] at hnm
       rcases hnm with rfl | rfl
       · exact ⟨exInst "d1", by decide, by decide⟩
       · exact ⟨exInst "d3", by decide, by decide⟩)).1⟩

/-- C8 witness: the amended behaviour at a concrete missing instance and a
concrete unknown distribute host. -/
theorem c8_witness :
    lookupKey exSecrets.instances "nope" = none ∧
    "h9" ∉ ["t1", "t2"] ∧
    Traefik.cmd_deploy exRender exSecrets "nope" true exWorld =
      ⟨exWorld, [], some "Instance 'nope' not found"⟩ ∧
    strContains "Instance 'nope' not found" "nope" = true :=
  ⟨by decide, by decide,
   (c8_missing_instance exRender exSecrets "nope" true exWorld
     ["t1", "t2"] "h9" (by decide) (by decide)).1,
   (c8_missing_instance exRender exSecrets "nope" true exWorld
     ["t1", "t2"] "h9" (by decide) (by decide)).2.2.2.1⟩

end Infra
